import Mathlib

/-!
Shallow embedding of the BotSim1.0 minute-by-minute portfolio simulator
(`Python/BotSim1.0`: `position_size.py`, `sim_entries.py`, `sim_exits.py`,
`simulation.py`, `initialization.py`, `main.py`).

Modelling conventions:
* Python floats are embedded as exact rationals (`ℚ`); the source's
  `round(x, 4)` display rounding of logged values is not applied to the
  record fields kept here (the spec grants rounding tolerance), except for
  `ampd_p_value` / `ampd_t_value`, where the 4-decimal rounding is part of
  the stored state and is embedded as `round4`.
* Timestamps are seconds since an arbitrary epoch (`Time := Nat`);
  `compare_timestamps_ignore_seconds` compares the year/month/day/hour/minute
  components, which is exactly equality of the minute-truncated value
  (`minuteOf`).
* Direction strings `'long'` / `'short'` are embedded as the two-valued
  `Dir` (the external data model constrains direction to this set).
* All module-level configuration variables read by the code (several of
  which are absent from the shipped `config.py`, e.g. `MAX_LEVERAGE`,
  `USE_POSITION_DESCALING`) are collected into an explicit `Config` record
  passed to every function.
* Python's `uuid`-generated trade identifiers are taken as parameters /
  derived from instance ids; identifier freshness is irrelevant to the
  properties proved here.
-/

namespace CBP

/-- Direction of a trade (`'long'` / `'short'` strings in the source). -/
inductive Dir
  | long
  | short
deriving DecidableEq, Repr

/-- Timestamps: seconds since an arbitrary epoch. -/
abbrev Time := Nat

/-- Minute truncation (`.replace(second=0, microsecond=0)` in the source). -/
def minuteOf (t : Time) : Nat := t / 60

/-- The function `compare_timestamps_ignore_seconds` of `sim_entries.py`: both
timestamps present and equal down to the minute; a `None` first argument
compares false.  (In the source either argument may be `None`/empty; in the
flows embedded here the second argument is always the current candle
timestamp, which is present.) -/
def cmpTs : Option Time → Time → Bool
  | none, _ => false
  | some a, b => minuteOf a == minuteOf b

/-- The configuration surface of `config.py`, including the variables the
code reads that are missing from the shipped `config.py` (`MAX_LEVERAGE`,
`USE_POSITION_DESCALING`, `POSITION_DESCALING_FACTOR`,
`USE_MIN_PENDING_CANDLES`, ...).  Defaults follow `config.py` where the
value exists there. -/
structure Config where
  fee_rate : ℚ := 3/10000
  starting_bankroll : ℚ := 10000
  position_size_method : Nat := 3
  position_size_qty : ℚ := 1/5
  position_size_amount : ℚ := 50
  position_size_percent : ℚ := 70
  USE_POSITION_DESCALING : Bool := false
  POSITION_DESCALING_FACTOR : ℚ := 0
  ALLOWED_SITUATIONS : List String := ["1v1"]
  tt_stf_any_inside_activation : Bool := false
  tt_stf_same_minute : Bool := false
  tt_stf_within_x_candles : Bool := false
  tt_stf_within_x : Nat := 1
  tt_stf_within_x_minutes : Bool := false
  tt_stf_within_minutes : Nat := 60
  USE_MIN_PENDING_AGE : Bool := false
  MIN_PENDING_AGE : ℚ := 72
  USE_MAX_PENDING_AGE : Bool := false
  MAX_PENDING_AGE : ℚ := 2500
  USE_MIN_PENDING_CANDLES : Bool := false
  MIN_PENDING_CANDLES : ℚ := 0
  USE_MAX_PENDING_CANDLES : Bool := false
  MAX_PENDING_CANDLES : ℚ := 0
  DD_on_fib0_5 : Bool := false
  DD_on_fib0_0 : Bool := false
  DD_on_fib_0_5 : Bool := false
  DD_on_fib_1_0 : Bool := false
  USE_STATIC_TIME_CAPIT : Bool := false
  STATIC_TIME_CAPIT_DURATION : ℚ := 3/2
  SL_on_fib0_5 : Bool := false
  SL_on_fib0_0 : Bool := false
  SL_on_fib_0_5 : Bool := false
  SL_on_fib_1_0 : Bool := false
  use_mpd_percent : Bool := false
  mpd_percent : ℚ := 18/5
  use_ampd_percent : Bool := false
  ampd_percent_base : ℚ := 3
  ampd_percent_max : ℚ := 8
  ampd_use_pending_time : Bool := true
  ampd_use_trigger_time : Bool := true
  ampd_pending_weight : ℚ := 50
  ampd_pending_time_high : ℚ := 100
  ampd_trigger_time_high : ℚ := 60
  MAX_LEVERAGE : Option ℚ := none
deriving Repr

/-- A 1-minute candle row.  The `open` and `volume` columns are never read
by the embedded entry/exit logic, so only the consumed fields are kept. -/
structure Candle where
  timestamp : Time
  low : ℚ
  high : ℚ
  close : ℚ
deriving DecidableEq, Repr

/-- An open-position record, mirroring the `open_position` dict built in
`process_entry` (`sim_entries.py` lines 679-741).  Python keys containing
spaces or dots are renamed (`'Completed Date'` → `completedDate`,
`'fib0.5'` → `fib05`, `'DateReached-1.0'` → `dateReachedNeg10`, ...). -/
structure Position where
  trade_id : String := ""
  opening_fee : ℚ := 0
  confirm_date : Time := 0
  active_date : Time := 0
  trade_date : Time := 0
  completedDate : Option Time := none
  targetPrice : ℚ := 0
  positionSize : ℚ := 0
  direction : Dir := .long
  openPrice : ℚ := 0
  timeframe : String := ""
  name : String := ""
  ampd_p_value : ℚ := 0
  ampd_t_value : ℚ := 0
  dateReached05 : Option Time := none
  dateReached00 : Option Time := none
  dateReachedNeg05 : Option Time := none
  dateReachedNeg10 : Option Time := none
  fib05 : Option ℚ := none
  fib00 : Option ℚ := none
  fibNeg05 : Option ℚ := none
  fibNeg10 : Option ℚ := none
  instance_id : Option String := none
  maxfib : Option ℚ := none
  extreme_price : Option ℚ := none
  extreme_price_date : Option Time := none
  max_position_drawdown : Option ℚ := none
  tt_entry_price : Option ℚ := none
deriving DecidableEq, Repr

/-- The running portfolio state threaded through `run_simulation`. -/
structure Ledger where
  cash_on_hand : ℚ := 0
  total_long_position : ℚ := 0
  total_short_position : ℚ := 0
  long_cost_basis : ℚ := 0
  short_cost_basis : ℚ := 0
  long_pnl : ℚ := 0
  short_pnl : ℚ := 0
deriving DecidableEq, Repr

/-- The financially relevant fields of a `trade_entry_dict` row written to
`trades_all.csv` by `process_entry` / `close_trade`. -/
structure TradeRec where
  trade_id : String
  order_type : String
  trade_fee : ℚ
  price : ℚ
  units_traded : ℚ
  realized_PnL : Option ℚ
  ind_PnL : ℚ
  loss_reason : Option String
deriving DecidableEq, Repr

/-- Result triple of the two drawdown checks
(`should_close, exit_price, reason`). -/
structure ExitCheck where
  should_close : Bool
  exit_price : Option ℚ
  reason : Option String
deriving DecidableEq, Repr

/-- The `(False, None, None)` result. -/
def noClose : ExitCheck := ⟨false, none, none⟩

/-- Result of `close_trade` (`sim_exits.py` lines 7-169): the updated
ledger scalars, the trade-log row, and the win/loss flags. -/
structure CloseResult where
  ledger : Ledger
  record : TradeRec
  is_win : Bool
  is_loss : Bool
deriving Repr

/-- The `calculate_position_size` function of `position_size.py`.  Modes:
1 fixed quantity, 2 fixed dollar amount, 3 percentage of bankroll
(optionally blended with the starting-bankroll "descaling" variant); any
other mode raises `ValueError`, embedded as `Except.error`. -/
def calculate_position_size (cfg : Config) (entry_price bankroll : ℚ) :
    Except String ℚ :=
  if cfg.position_size_method = 1 then
    .ok cfg.position_size_qty
  else if cfg.position_size_method = 2 then
    .ok (cfg.position_size_amount / entry_price)
  else if cfg.position_size_method = 3 then
    if cfg.USE_POSITION_DESCALING then
      let current_position_size := (cfg.position_size_percent / 100) * bankroll / entry_price
      let starting_position_size := (cfg.position_size_percent / 100) * cfg.starting_bankroll / entry_price
      .ok (starting_position_size * cfg.POSITION_DESCALING_FACTOR +
           current_position_size * (1 - cfg.POSITION_DESCALING_FACTOR))
    else
      .ok ((cfg.position_size_percent / 100) * bankroll / entry_price)
  else
    .error "Invalid position_size_method"

/-- Position size as consumed by `process_entry`; the `ValueError` of an
invalid mode aborts the Python run, embedded here as size 0 (which leaves
every ledger quantity unchanged). -/
def position_size_of (cfg : Config) (entry_price bankroll : ℚ) : ℚ :=
  ((calculate_position_size cfg entry_price bankroll).toOption).getD 0

/-- The `close_trade` function of `sim_exits.py` (lines 7-169): individual
and realized PnL, side aggregates, cost-basis / pnl reset at zero, cash
update, and the logged close row.  Note that `close_trade` reads the
module-level `fee_rate` from `config`, embedded as `cfg.fee_rate`. -/
def close_trade (cfg : Config) (pos : Position) (close_price : ℚ)
    (loss_reason : Option String) (L : Ledger) : CloseResult :=
  let position_size := pos.positionSize
  let closing_fee := close_price * position_size * cfg.fee_rate
  let opening_fee := pos.opening_fee
  let open_price := pos.openPrice
  let price_pnl :=
    if pos.direction = .long then (close_price - open_price) * position_size
    else (open_price - close_price) * position_size
  let ind_PnL := price_pnl - opening_fee - closing_fee
  match pos.direction with
  | .long =>
    let realized_price_pnl := (close_price - L.long_cost_basis) * position_size
    let realized_PnL := realized_price_pnl - opening_fee - closing_fee
    let newTotal := L.total_long_position - position_size
    let cash := L.cash_on_hand + realized_PnL
    let basis := if newTotal = 0 then 0 else L.long_cost_basis
    let pnl := if newTotal = 0 then 0 else L.long_pnl
    { ledger := { L with total_long_position := newTotal, cash_on_hand := cash,
                         long_cost_basis := basis, long_pnl := pnl },
      record := { trade_id := pos.trade_id, order_type := "close long",
                  trade_fee := opening_fee + closing_fee, price := close_price,
                  units_traded := -position_size, realized_PnL := some realized_PnL,
                  ind_PnL := ind_PnL, loss_reason := loss_reason },
      is_win := decide (0 < ind_PnL), is_loss := decide (ind_PnL < 0) }
  | .short =>
    let realized_price_pnl := (L.short_cost_basis - close_price) * position_size
    let realized_PnL := realized_price_pnl - opening_fee - closing_fee
    let newTotal := L.total_short_position - position_size
    let cash := L.cash_on_hand + realized_PnL
    let basis := if newTotal = 0 then 0 else L.short_cost_basis
    let pnl := if newTotal = 0 then 0 else L.short_pnl
    { ledger := { L with total_short_position := newTotal, cash_on_hand := cash,
                         short_cost_basis := basis, short_pnl := pnl },
      record := { trade_id := pos.trade_id, order_type := "close short",
                  trade_fee := opening_fee + closing_fee, price := close_price,
                  units_traded := position_size, realized_PnL := some realized_PnL,
                  ind_PnL := ind_PnL, loss_reason := loss_reason },
      is_win := decide (0 < ind_PnL), is_loss := decide (ind_PnL < 0) }

/-- Effective advanced-drawdown percentage of a position
(`sim_exits.py` lines 193-218): blend of base and max by the pending /
trigger factors, clamped to `[base, max]`. -/
def ampd_percent_of (cfg : Config) (pos : Position) : ℚ :=
  let scale_factor : ℚ :=
    if cfg.ampd_use_pending_time && cfg.ampd_use_trigger_time then
      let pending_weight := cfg.ampd_pending_weight / 100
      pos.ampd_p_value * pending_weight + pos.ampd_t_value * (1 - pending_weight)
    else if cfg.ampd_use_pending_time then pos.ampd_p_value
    else if cfg.ampd_use_trigger_time then pos.ampd_t_value
    else 0
  let p := cfg.ampd_percent_base + scale_factor * (cfg.ampd_percent_max - cfg.ampd_percent_base)
  max cfg.ampd_percent_base (min cfg.ampd_percent_max p)

/-- Shared body of the two drawdown checks once the effective percentage is
fixed (`sim_exits.py` lines 221-339 / 358-476): opening-minute branch via
`extreme_price`, otherwise candle-extreme comparison against the allowed
loss (a percentage of the bankroll implied at entry), with the
`max_position_drawdown` early-out. -/
def drawdown_check_body (cfg : Config) (pos : Position) (price : Candle)
    (t : Time) (pct : ℚ) (same_minute_tag tag : String) : ExitCheck :=
  let position_size := pos.positionSize
  let entry_price := pos.openPrice
  let current_price_value := if pos.direction = .long then price.low else price.high
  if minuteOf t = minuteOf pos.trade_date then
    match pos.completedDate with
    | some cd =>
      if minuteOf cd = minuteOf pos.trade_date then
        match pos.extreme_price with
        | some extreme_price =>
          let extreme_drawdown_pct :=
            if pos.direction = .long then (entry_price - extreme_price) / entry_price * 100
            else (extreme_price - entry_price) / entry_price * 100
          if pct < extreme_drawdown_pct then
            let exit_price :=
              if pos.direction = .long then entry_price * (1 - pct / 100)
              else entry_price * (1 + pct / 100)
            ⟨true, some exit_price, some same_minute_tag⟩
          else noClose
        | none => noClose
      else noClose
    | none => noClose
  else
    let current_pnl :=
      if pos.direction = .long then (current_price_value - entry_price) * position_size
      else (entry_price - current_price_value) * position_size
    let current_drawdown_pct :=
      if pos.direction = .long then (entry_price - current_price_value) / entry_price * 100
      else (current_price_value - entry_price) / entry_price * 100
    let entry_bankroll := position_size * entry_price / (cfg.position_size_percent / 100)
    let max_allowed_loss := entry_bankroll * (pct / 100)
    let guarded :=
      match pos.max_position_drawdown with
      | some imd => decide (current_drawdown_pct ≤ imd)
      | none => false
    if guarded then noClose
    else if current_pnl ≤ -max_allowed_loss then
      let exit_price :=
        if pos.direction = .long then entry_price - max_allowed_loss / position_size
        else entry_price + max_allowed_loss / position_size
      ⟨true, some exit_price, some tag⟩
    else noClose

/-- The `check_advanced_max_position_drawdown` function of `sim_exits.py`
(lines 171-339). -/
def check_advanced_max_position_drawdown (cfg : Config) (pos : Position)
    (price : Candle) (t : Time) : ExitCheck :=
  if !cfg.use_ampd_percent || cfg.position_size_method ≠ 3 then noClose
  else
    drawdown_check_body cfg pos price t (ampd_percent_of cfg pos)
      "same-minute advanced max position drawdown"
      "advanced max position drawdown"

/-- The `check_max_position_drawdown` function of `sim_exits.py`
(lines 342-476). -/
def check_max_position_drawdown (cfg : Config) (pos : Position)
    (price : Candle) (t : Time) : ExitCheck :=
  if !cfg.use_mpd_percent || cfg.position_size_method ≠ 3 then noClose
  else
    drawdown_check_body cfg pos price t cfg.mpd_percent
      "same-minute max position drawdown"
      "max position drawdown"

/-- One Fibonacci alternative inside `check_fib_levels`: flag on, the
`DateReachedX` timestamp present and in the current minute, and the fib
price present. -/
def fib_alt (flag : Bool) (dr : Option Time) (fp : Option ℚ) (tag : String)
    (ts : Time) (next : ExitCheck) : ExitCheck :=
  if flag && cmpTs dr ts then
    match fp with
    | some p => ⟨true, some p, some tag⟩
    | none => next
  else next

/-- The `check_fib_levels` function of `sim_exits.py` (lines 478-513). -/
def check_fib_levels (cfg : Config) (minute : Candle) (pos : Position) : ExitCheck :=
  fib_alt cfg.SL_on_fib0_5 pos.dateReached05 pos.fib05 "fib0.5_exit" minute.timestamp
    (fib_alt cfg.SL_on_fib0_0 pos.dateReached00 pos.fib00 "fib0.0_exit" minute.timestamp
      (fib_alt cfg.SL_on_fib_0_5 pos.dateReachedNeg05 pos.fibNeg05 "fib-0.5_exit" minute.timestamp
        (fib_alt cfg.SL_on_fib_1_0 pos.dateReachedNeg10 pos.fibNeg10 "fib-1.0_exit" minute.timestamp
          noClose)))

/-- An instance record as loaded by `load_instances` (`initialization.py`),
restricted to the fields the entry/exit logic consumes.  For Fibonacci
re-entries `process_entry` receives an open position in place of an
instance; `instOfPos` performs that conversion. -/
structure Inst where
  instance_id : Option String := none
  situation : String := "1v1"
  timeframe : String := ""
  direction : Dir := .long
  confirm_date : Option Time := none
  active_date : Option Time := none
  completedDate : Option Time := none
  entry : ℚ := 0
  target : Option ℚ := none
  fib05 : Option ℚ := none
  fib00 : Option ℚ := none
  fibNeg05 : Option ℚ := none
  fibNeg10 : Option ℚ := none
  dateReached05 : Option Time := none
  dateReached00 : Option Time := none
  dateReachedNeg05 : Option Time := none
  dateReachedNeg10 : Option Time := none
  maxFib : Option ℚ := none
  extreme_price : Option ℚ := none
  extreme_price_date : Option Time := none
deriving DecidableEq, Repr

/-- Python's `round(x, 4)` applied to the AMPD factors.  Python rounds
half-to-even; `Mathlib.round` rounds half-up.  The two agree except at exact
4-decimal ties, and no statement below depends on tie behaviour. -/
def round4 (x : ℚ) : ℚ := (round (x * 10000) : ℤ) / 10000

/-- The `timeframe_to_minutes` function of `sim_entries.py` (lines 81-89).
Malformed digit prefixes raise in Python; here they give 0, which every
caller treats as "invalid timeframe". -/
def timeframe_to_minutes (tf : String) : Nat :=
  if tf.endsWith "m" then (tf.dropRight 1).toNat?.getD 0
  else if tf.endsWith "h" then (tf.dropRight 1).toNat?.getD 0 * 60
  else if tf.endsWith "d" then (tf.dropRight 1).toNat?.getD 0 * 1440
  else 0

/-- The `instances_by_minute` index built by `load_instances`: an
association list from activation minute to the instances activating in that
minute (Python uses a dict with unique keys). -/
abbrev InstIndex := List (Nat × List Inst)

/-- Dictionary lookup `all_instances.get(minute, [])`. -/
def lookupMinute (ai : InstIndex) (m : Nat) : List Inst :=
  ((ai.find? (fun p => p.1 == m)).map Prod.snd).getD []

/-- All instances of the index (used for the cache-based scans of trigger
modes (c) and (d); the Python dict iteration order only affects which of
several qualifying triggers is returned, never whether one is found). -/
def allInsts (ai : InstIndex) : List Inst :=
  ai.foldl (fun acc p => acc ++ p.2) []

/-- Mode (a) qualification (`tt_stf_any_inside_activation`,
`sim_entries.py` lines 288-318): same timeframe and direction, confirm and
active both strictly inside this trade's confirm→active window, and not
completed inside that window.  (`other_trade is not trade` is an object
identity test in Python; instances are distinct objects, embedded as value
inequality.) -/
def qualA (c a : Time) (trade other : Inst) : Bool :=
  decide (other ≠ trade) && (other.timeframe == trade.timeframe) &&
  decide (other.direction = trade.direction) &&
  (match other.confirm_date, other.active_date with
   | some oc, some oa =>
     decide (c < oc ∧ oc < a ∧ c < oa ∧ oa < a) &&
     (match other.completedDate with
      | some ocp => decide (¬ (c < ocp ∧ ocp < a))
      | none => true)
   | _, _ => false)

/-- Mode (a) search: scan each minute from the confirm minute to the active
minute and look for a qualifying instance indexed at that minute. -/
def findA (ai : InstIndex) (c a : Time) (trade : Inst) : Option Inst :=
  ((List.range (minuteOf a + 1 - minuteOf c)).map (· + minuteOf c)).findSome?
    (fun m => (lookupMinute ai m).find? (qualA c a trade))

/-- Mode (b) qualification (`tt_stf_same_minute`, lines 336-375): same
timeframe and direction, confirm and active strictly inside the window (no
completion condition); only same-minute activations are scanned. -/
def qualB (c a : Time) (trade other : Inst) : Bool :=
  decide (other ≠ trade) && (other.timeframe == trade.timeframe) &&
  decide (other.direction = trade.direction) &&
  (match other.confirm_date, other.active_date with
   | some oc, some oa => decide (c < oc ∧ oc < a ∧ c < oa ∧ oa < a)
   | _, _ => false)

/-- Mode (b) search over the current minute's activations. -/
def findB (relevant : List Inst) (c a : Time) (trade : Inst) : Option Inst :=
  relevant.find? (qualB c a trade)

/-- Shared qualification of modes (c) and (d) (lines 444-452 / 528-536)
given the window start `ws` (which may be negative): confirm strictly
inside the window, activation in `[ws, a)` (also filtered by activation
minute in `[ws-minute, a-minute)`), and completion absent or strictly after
this trade's activation. -/
def qualCD (ws : ℤ) (amin : Nat) (c a : Time) (trade other : Inst) : Bool :=
  decide (other ≠ trade) && (other.timeframe == trade.timeframe) &&
  decide (other.direction = trade.direction) &&
  (match other.confirm_date, other.active_date with
   | some oc, some oa =>
     decide (Int.fdiv ws 60 ≤ (minuteOf oa : ℤ) ∧ minuteOf oa < amin) &&
     decide (c < oc ∧ oc < a) && decide (ws ≤ (oa : ℤ) ∧ (oa : ℤ) < (a : ℤ)) &&
     (match other.completedDate with
      | some ocp => decide ((a : ℤ) < (ocp : ℤ))
      | none => true)
   | _, _ => false)

/-- Mode (c) search (`tt_stf_within_x_candles`): window of
`tt_stf_within_x` timeframe-multiples before this activation. -/
def findC (cfg : Config) (ai : InstIndex) (c a : Time) (trade : Inst) : Option Inst :=
  let window := timeframe_to_minutes trade.timeframe * cfg.tt_stf_within_x
  let ws : ℤ := (a : ℤ) - window * 60
  (allInsts ai).find? (qualCD ws (minuteOf a) c a trade)

/-- Mode (d) search (`tt_stf_within_x_minutes`): fixed window of
`tt_stf_within_minutes` minutes before this activation. -/
def findD (cfg : Config) (ai : InstIndex) (c a : Time) (trade : Inst) : Option Inst :=
  let ws : ℤ := (a : ℤ) - cfg.tt_stf_within_minutes * 60
  (allInsts ai).find? (qualCD ws (minuteOf a) c a trade)

/-- The `check_for_trigger_trades` function of `sim_entries.py`
(lines 252-548).  Returned trigger is the qualifying instance itself (the
source wraps it in a dict carrying its parsed dates and entry price).
Control flow is kept exactly: after an unsuccessful mode (a) the function
returns "no trigger" unless mode (b) or (c) is enabled, and after an
unsuccessful mode (b) it returns unless mode (c) is enabled — in both
cases without consulting mode (d).  (`all_instances` is always supplied by
`run_simulation` when a mode needing it is enabled.)  When the trade's
confirm or active date is missing the source returns a bare `False`
(a latent type error); embedded as "no trigger". -/
def check_for_trigger_trades (cfg : Config) (trade : Inst)
    (relevant : List Inst) (ai : InstIndex) : Bool × Option Inst :=
  if !(cfg.tt_stf_any_inside_activation || cfg.tt_stf_same_minute ||
       cfg.tt_stf_within_x_candles || cfg.tt_stf_within_x_minutes) then
    (true, none)
  else
    match trade.confirm_date, trade.active_date with
    | some c, some a =>
      let ra := if cfg.tt_stf_any_inside_activation then findA ai c a trade else none
      match ra with
      | some t => (true, some t)
      | none =>
        if cfg.tt_stf_any_inside_activation &&
           !(cfg.tt_stf_same_minute || cfg.tt_stf_within_x_candles) then
          (false, none)
        else
          let rb := if cfg.tt_stf_same_minute then findB relevant c a trade else none
          match rb with
          | some t => (true, some t)
          | none =>
            if cfg.tt_stf_same_minute && !cfg.tt_stf_within_x_candles then
              (false, none)
            else
              let rc := if cfg.tt_stf_within_x_candles then findC cfg ai c a trade else none
              match rc with
              | some t => (true, some t)
              | none =>
                let rd := if cfg.tt_stf_within_x_minutes && decide (0 < cfg.tt_stf_within_minutes)
                          then findD cfg ai c a trade else none
                match rd with
                | some t => (true, some t)
                | none => (false, none)
    | _, _ => (false, none)

/-- Pending-time factor computed by `process_entry` (lines 573-583):
normalised pending age in days, clamped to `[0,1]` and rounded to 4
decimals. -/
def pending_p_value (cfg : Config) (c a : Time) : ℚ :=
  if cfg.ampd_use_pending_time then
    let pending_days : ℚ := ((a : ℚ) - (c : ℚ)) / (24 * 3600)
    if 0 < cfg.ampd_pending_time_high then
      round4 (min (pending_days / cfg.ampd_pending_time_high) 1)
    else 0
  else 0

/-- Trigger-time factor computed by `process_entry` (lines 585-609). -/
def trigger_t_value (cfg : Config) (trigger : Option Inst) (a : Time) : ℚ :=
  if cfg.ampd_use_trigger_time then
    match trigger with
    | some tt =>
      match tt.active_date with
      | some ta =>
        if 0 < cfg.ampd_trigger_time_high then
          let time_diff_minutes : ℚ := ((a : ℚ) - (ta : ℚ)) / 60
          round4 (max 0 (min 1 ((cfg.ampd_trigger_time_high - time_diff_minutes) /
            cfg.ampd_trigger_time_high)))
        else 0
      | none => 0
    | none => 0
  else 0

/-- The open-position record built by `process_entry` (lines 679-741),
including the stored opening fee and the derived `max_position_drawdown`
(negative absolute dollar excursion versus the precomputed extreme). -/
def entryPosition (trade : Inst) (trade_name : String) (entry_price : ℚ)
    (now : Time) (trade_id : String) (trigger : Option Inst)
    (position_size pq tq : ℚ) (opening_fee : ℚ) : Position :=
  { trade_id := trade_id, opening_fee := opening_fee,
    confirm_date := trade.confirm_date.getD 0,
    active_date := trade.active_date.getD 0,
    trade_date := now,
    completedDate := trade.completedDate,
    targetPrice := trade.target.getD 0,
    positionSize := position_size, direction := trade.direction,
    openPrice := entry_price, timeframe := trade.timeframe, name := trade_name,
    ampd_p_value := pq, ampd_t_value := tq,
    dateReached05 := trade.dateReached05, dateReached00 := trade.dateReached00,
    dateReachedNeg05 := trade.dateReachedNeg05, dateReachedNeg10 := trade.dateReachedNeg10,
    fib05 := trade.fib05, fib00 := trade.fib00,
    fibNeg05 := trade.fibNeg05, fibNeg10 := trade.fibNeg10,
    instance_id := trade.instance_id, maxfib := trade.maxFib,
    extreme_price := trade.extreme_price,
    extreme_price_date := trade.extreme_price_date,
    max_position_drawdown :=
      match trade.extreme_price with
      | some ep =>
        some (-(|(if trade.direction = .long then entry_price - ep else ep - entry_price)| *
          position_size))
      | none => none,
    tt_entry_price := trigger.map (·.entry) }

/-- State mutated by the entry pass: ledger, open-position list, trade log. -/
structure EntryResult where
  ledger : Ledger
  live : List Position
  log : List TradeRec
deriving Repr

/-- Leverage/position-count cap of `process_entry` (lines 556-559): with
method 3 and a positive `MAX_LEVERAGE`, skip the entry when
`int(MAX_LEVERAGE*100/position_size_percent)` positions are already open
(`int()` truncation embedded as `floor`; the operands are positive). -/
def entry_capped (cfg : Config) (open_count : Nat) : Bool :=
  decide (cfg.position_size_method = 3) &&
  (match cfg.MAX_LEVERAGE with
   | some lev =>
     decide (0 < lev) &&
     (let max_allowed_positions := ((lev * 100) / cfg.position_size_percent).floor
      decide (0 < max_allowed_positions) && decide (max_allowed_positions ≤ (open_count : ℤ)))
   | none => false)

/-- The `process_entry` function of `sim_entries.py` (lines 550-755):
leverage/position-count cap, AMPD factors, position sizing from the
current cash on hand, volume-weighted cost-basis update of the matching
side (cash untouched; the opening fee is stored on the position), the open
trade-log row, and the appended open position. -/
def process_entry (cfg : Config) (trade : Inst) (trade_name : String)
    (entry_price : ℚ) (now : Time) (r : EntryResult)
    (trade_id : String) (trigger : Option Inst) : EntryResult :=
  if entry_capped cfg r.live.length then r
  else
    let pq :=
      match trade.confirm_date, trade.active_date with
      | some c, some a => pending_p_value cfg c a
      | _, _ => 0
    let tq :=
      match trade.active_date with
      | some a => trigger_t_value cfg trigger a
      | none => 0
    let position_size := position_size_of cfg entry_price r.ledger.cash_on_hand
    let trade_cost := position_size * entry_price
    let trade_fee := trade_cost * cfg.fee_rate
    let L := r.ledger
    let L' :=
      match trade.direction with
      | .long =>
        let newTotal := L.total_long_position + position_size
        let basis :=
          if 0 < newTotal then
            (L.long_cost_basis * (newTotal - position_size) + trade_cost) / newTotal
          else 0
        { L with total_long_position := newTotal, long_cost_basis := basis }
      | .short =>
        let newTotal := L.total_short_position + position_size
        let basis :=
          if 0 < newTotal then
            (L.short_cost_basis * (newTotal - position_size) + trade_cost) / newTotal
          else 0
        { L with total_short_position := newTotal, short_cost_basis := basis }
    let openRec : TradeRec :=
      { trade_id := trade_id,
        order_type := if trade.direction = .long then "open long" else "open short",
        trade_fee := trade_fee, price := entry_price,
        units_traded := if trade.direction = .long then position_size else -position_size,
        realized_PnL := none, ind_PnL := 0, loss_reason := none }
    let pos := entryPosition trade trade_name entry_price now trade_id trigger
      position_size pq tq trade_fee
    { ledger := L', live := r.live ++ [pos], log := r.log ++ [openRec] }

/-- Conversion of an open position back to the record shape `process_entry`
consumes, used by the Fibonacci re-entry sub-pass (the source passes the
open-position dict itself; `process_entry`'s field-name fallbacks cover
both shapes). -/
def instOfPos (p : Position) : Inst :=
  { instance_id := p.instance_id, situation := "1v1", timeframe := p.timeframe,
    direction := p.direction, confirm_date := some p.confirm_date,
    active_date := some p.active_date, completedDate := p.completedDate,
    entry := p.openPrice, target := some p.targetPrice,
    fib05 := p.fib05, fib00 := p.fib00, fibNeg05 := p.fibNeg05, fibNeg10 := p.fibNeg10,
    dateReached05 := p.dateReached05, dateReached00 := p.dateReached00,
    dateReachedNeg05 := p.dateReachedNeg05, dateReachedNeg10 := p.dateReachedNeg10,
    maxFib := p.maxfib, extreme_price := p.extreme_price,
    extreme_price_date := p.extreme_price_date }

/-- Substring test `'fib' in str(trade_id)`. -/
def containsFib (s : String) : Bool := (s.splitOn "fib").length ≠ 1

/-- One Fibonacci re-entry sub-pass of `sim_entries` (lines 153-247):
positions (other than fib sub-entries) whose `DateReachedX` falls in the
current minute and whose fib price is set spawn an additional entry at the
fib price under trade id `"{id}_fibX"`. -/
def fib_pass (cfg : Config) (flag : Bool) (getDate : Position → Option Time)
    (getFib : Position → Option ℚ) (lvl : String) (minute : Candle)
    (r : EntryResult) : EntryResult :=
  if !flag then r
  else
    let fib_positions := r.live.filter (fun p =>
      (getDate p).isSome && cmpTs (getDate p) minute.timestamp &&
      (getFib p).isSome && !containsFib p.trade_id)
    fib_positions.foldl (fun r pos =>
      process_entry cfg (instOfPos pos)
        (pos.timeframe ++ " fib" ++ lvl) ((getFib pos).getD 0) minute.timestamp r
        (pos.trade_id ++ "_fib" ++ lvl) none) r

/-- Entry filters of `sim_entries` applied to one activating candidate
(lines 102-136): pending-age (time- and candle-based) and the trigger-trade
requirement.  Returns `none` when the candidate is skipped, otherwise the
trigger-trade information to record.  (When `confirm_date` is missing and a
filter needing it is enabled the source raises; such instances are treated
as skipped, and no claim involves them.) -/
def entry_filters (cfg : Config) (trade : Inst) (relevant : List Inst)
    (ai : InstIndex) : Option (Option Inst) :=
  match trade.confirm_date, trade.active_date with
  | some c, some a =>
    let diff_minutes : ℚ := ((a : ℚ) - (c : ℚ)) / 60
    if (cfg.USE_MIN_PENDING_AGE || cfg.USE_MAX_PENDING_AGE) &&
       ((cfg.USE_MIN_PENDING_AGE && decide (diff_minutes < cfg.MIN_PENDING_AGE)) ||
        (cfg.USE_MAX_PENDING_AGE && decide (cfg.MAX_PENDING_AGE < diff_minutes))) then
      none
    else
      let tf_minutes := timeframe_to_minutes trade.timeframe
      let candle_count : ℚ := diff_minutes / (tf_minutes : ℚ)
      if (cfg.USE_MIN_PENDING_CANDLES || cfg.USE_MAX_PENDING_CANDLES) &&
         (tf_minutes = 0 ||
          (cfg.USE_MIN_PENDING_CANDLES && decide (candle_count < cfg.MIN_PENDING_CANDLES)) ||
          (cfg.USE_MAX_PENDING_CANDLES && decide (cfg.MAX_PENDING_CANDLES < candle_count))) then
        none
      else
        match check_for_trigger_trades cfg trade relevant ai with
        | (true, trig) => some trig
        | (false, _) => none
  | _, _ => none

/-- The `sim_entries` function of `sim_entries.py` (lines 92-249): filter
the minute's activations by situation, run the per-candidate filters and
regular entries, then the four Fibonacci re-entry sub-passes.  Trade names
and ids: the source builds names from the timeframe/direction plus a UUID
fragment and ids from a fresh UUID; the embedding uses the instance id. -/
def sim_entries (cfg : Config) (minute : Candle) (relevant : List Inst)
    (ai : InstIndex) (r0 : EntryResult) : EntryResult :=
  let active_trades := relevant.filter (fun t =>
    t.active_date.isSome && cmpTs t.active_date minute.timestamp &&
    decide (t.situation ∈ cfg.ALLOWED_SITUATIONS))
  let r := active_trades.foldl (fun r t =>
    match entry_filters cfg t relevant ai with
    | some trig =>
      process_entry cfg t
        (t.timeframe ++ " " ++ (if t.direction = .long then "long" else "short"))
        t.entry minute.timestamp r (t.instance_id.getD "") trig
    | none => r) r0
  let r := fib_pass cfg cfg.DD_on_fib0_5 (·.dateReached05) (·.fib05) "0.5" minute r
  let r := fib_pass cfg cfg.DD_on_fib0_0 (·.dateReached00) (·.fib00) "0.0" minute r
  let r := fib_pass cfg cfg.DD_on_fib_0_5 (·.dateReachedNeg05) (·.fibNeg05) "-0.5" minute r
  fib_pass cfg cfg.DD_on_fib_1_0 (·.dateReachedNeg10) (·.fibNeg10) "-1.0" minute r

/-- Static time capitulation condition (`sim_exits.py` lines 555-557):
enabled and the position has been open at least
`STATIC_TIME_CAPIT_DURATION` hours. -/
def static_capit_fires (cfg : Config) (minute : Candle) (pos : Position) : Bool :=
  cfg.USE_STATIC_TIME_CAPIT &&
  decide (cfg.STATIC_TIME_CAPIT_DURATION * 3600 ≤
    ((minute.timestamp : ℚ) - (pos.trade_date : ℚ)))

/-- Per-position exit decision inside the `sim_exits` loop (`sim_exits.py`
lines 530-566) given the loop's running `close_price` value `cp`.  Returns
`some (price, reason)` when the position closes this minute.  Note that
when a drawdown check fires, the close uses the running `close_price`
value, not the check's returned `exit_price`: the loop at lines 534-544
binds the check's price to `exit_price`, which line 569 never passes to
`close_trade`. -/
def exit_decision (cfg : Config) (minute : Candle) (cp : ℚ) (pos : Position) :
    Option (ℚ × Option String) :=
  let c1 := if cfg.use_ampd_percent then
      check_advanced_max_position_drawdown cfg pos minute minute.timestamp
    else noClose
  let c2 := if cfg.use_mpd_percent && !c1.should_close then
      check_max_position_drawdown cfg pos minute minute.timestamp
    else c1
  if c2.should_close then some (cp, c2.reason)
  else
    let fib := check_fib_levels cfg minute pos
    if fib.should_close then some ((fib.exit_price).getD cp, fib.reason)
    else if static_capit_fires cfg minute pos then
      some (minute.close, some "static time capit")
    else if cmpTs pos.completedDate minute.timestamp then
      some (pos.targetPrice, none)
    else none

/-- State threaded through the `sim_exits` loop: ledger, the running
`close_price` variable, the live open-position list, the trade log, and the
win/loss counters. -/
structure ExitsState where
  ledger : Ledger
  close_price : ℚ
  live : List Position
  log : List TradeRec
  wins : Nat
  losses : Nat
deriving Repr

/-- One iteration of the `sim_exits` loop for one snapshot position: decide,
then close (updating the ledger, erasing the first matching live position —
Python's `list.remove` — and appending the close row). -/
def sim_exits_step (cfg : Config) (minute : Candle) (st : ExitsState)
    (pos : Position) : ExitsState :=
  match exit_decision cfg minute st.close_price pos with
  | some (cp, lr) =>
    let res := close_trade cfg pos cp lr st.ledger
    { ledger := res.ledger, close_price := cp, live := st.live.erase pos,
      log := st.log ++ [res.record],
      wins := st.wins + (if res.is_win then 1 else 0),
      losses := st.losses + (if res.is_loss then 1 else 0) }
  | none => st

/-- The `sim_exits` function of `sim_exits.py` (lines 515-577): iterate over
a snapshot copy (`open_positions[:]`) of the open positions, with the
`close_price` variable initialised to the minute's close and persisting
across iterations. -/
def sim_exits (cfg : Config) (minute : Candle) (L : Ledger)
    (open_positions : List Position) (log : List TradeRec) : ExitsState :=
  open_positions.foldl (sim_exits_step cfg minute)
    { ledger := L, close_price := minute.close, live := open_positions,
      log := log, wins := 0, losses := 0 }

/-- Simulation state carried across minutes by `run_simulation`. -/
structure SimState where
  ledger : Ledger
  live : List Position
  log : List TradeRec
deriving Repr

/-- One minute's instance input: the candle and the instances activating in
that minute (`instances_by_minute.get(minute_key, [])`). -/
structure MinuteInput where
  candle : Candle
  relevant : List Inst
deriving Repr

/-- The position cap of `run_simulation` (lines 242-246): `int(lev*100/pct)`
when method 3 and a positive leverage cap are configured, infinite
(`none`) otherwise. -/
def max_allowed_positions (cfg : Config) : Option ℤ :=
  match cfg.MAX_LEVERAGE with
  | some lev =>
    if cfg.position_size_method = 3 ∧ 0 < lev then
      some ((lev * 100 / cfg.position_size_percent).floor)
    else none
  | none => none

/-- The entry pass of one minute of `run_simulation` (lines 283-298),
gated by the position cap. -/
def run_minute_entries (cfg : Config) (ai : InstIndex) (st : SimState)
    (inp : MinuteInput) : SimState :=
  let entriesAllowed :=
    match max_allowed_positions cfg with
    | some m => decide ((st.live.length : ℤ) < m)
    | none => true
  if entriesAllowed then
    let r := sim_entries cfg inp.candle inp.relevant ai
      { ledger := st.ledger, live := st.live, log := st.log }
    { ledger := r.ledger, live := r.live, log := r.log : SimState }
  else st

/-- One iteration of the minute loop of `run_simulation` (lines 271-338):
entry pass (gated by the position cap), exit pass, then the mark-to-market
recomputation of both sides' unrealized PnL at the minute's close. -/
def run_minute (cfg : Config) (ai : InstIndex) (st : SimState)
    (inp : MinuteInput) : SimState :=
  let st1 := run_minute_entries cfg ai st inp
  let ex := sim_exits cfg inp.candle st1.ledger st1.live st1.log
  let close := inp.candle.close
  let L := ex.ledger
  { ledger :=
      { L with long_pnl := L.total_long_position * (close - L.long_cost_basis),
               short_pnl := L.total_short_position * (L.short_cost_basis - close) },
    live := ex.live, log := ex.log }

/-- The minute loop of `run_simulation` over a list of minutes in input
order (the monthly chunking only partitions log files; early-termination
checks stop the loop early and never change per-minute state, so they are
immaterial to the per-minute invariants proved here). -/
def run_sim (cfg : Config) (ai : InstIndex) (st : SimState)
    (inputs : List MinuteInput) : SimState :=
  inputs.foldl (run_minute cfg ai) st

/-- Fresh-run initial state (main.py `'N'` branch / `run_simulation`
initialisation): full starting bankroll in cash, zero positions, zero
bases. -/
def initialState (cfg : Config) : SimState :=
  { ledger := { cash_on_hand := cfg.starting_bankroll }, live := [], log := [] }

/-- The fields of one `analysis_YYYYMM.csv` row that `load_state` restores. -/
structure AnalysisRec where
  timestamp : Time
  cash_on_hand : ℚ := 0
  total_long_position : ℚ := 0
  long_cost_basis : ℚ := 0
  total_short_position : ℚ := 0
  short_cost_basis : ℚ := 0
deriving DecidableEq, Repr

/-- The resume timestamp restored by `load_state` (`initialization.py`
lines 260-336): the timestamp of the last record of the latest analysis
file, returned unchanged as `current_date`. -/
def load_state_current_date (records : List AnalysisRec) : Option Time :=
  records.getLast?.map (·.timestamp)

/-- The candle-window filter of `run_simulation` (line 239):
`starting_date <= c['timestamp'] <= ending_date`, bounds inclusive. -/
def day_candles (candles : List Candle) (starting ending : Time) : List Candle :=
  candles.filter (fun c => decide (starting ≤ c.timestamp ∧ c.timestamp ≤ ending))

/-- Minutes processed by a resumed run: main.py's `'C'` branch passes the
restored `current_date` directly as `run_simulation`'s `starting_date`, so
the processed minutes are the candle timestamps in
`[current_date, ending_date]`. -/
def resumed_processed_minutes (records : List AnalysisRec)
    (candles : List Candle) (ending : Time) : List Time :=
  match load_state_current_date records with
  | some d => (day_candles candles d ending).map (·.timestamp)
  | none => []

/-! ## Aggregate/open-position conservation (spec §8, claim C1) -/

/-- Sum of `'Position Size'` over the open positions of one side. -/
def sideSum (d : Dir) (l : List Position) : ℚ :=
  (l.map (fun p => if p.direction = d then p.positionSize else 0)).sum

/-- Conservation invariant of the spec: each aggregate side position equals
the sum of the open positions of that side. -/
def Conserved (L : Ledger) (live : List Position) : Prop :=
  L.total_long_position = sideSum .long live ∧
  L.total_short_position = sideSum .short live

lemma sideSum_append (d : Dir) (l : List Position) (p : Position) :
    sideSum d (l ++ [p]) = sideSum d l + (if p.direction = d then p.positionSize else 0) := by
  simp [sideSum]

lemma sideSum_of_perm (d : Dir) {l₁ l₂ : List Position} (h : l₁.Perm l₂) :
    sideSum d l₁ = sideSum d l₂ :=
  (h.map _).sum_eq

lemma sideSum_erase (d : Dir) {l : List Position} {p : Position} (h : p ∈ l) :
    sideSum d (l.erase p) = sideSum d l - (if p.direction = d then p.positionSize else 0) := by
  have h2 : sideSum d l = sideSum d (p :: l.erase p) :=
    sideSum_of_perm d (List.perm_cons_erase h)
  simp only [sideSum, List.map_cons, List.sum_cons] at h2 ⊢
  linarith

lemma close_trade_totals (cfg : Config) (pos : Position) (cp : ℚ)
    (lr : Option String) (L : Ledger) :
    (close_trade cfg pos cp lr L).ledger.total_long_position
      = L.total_long_position - (if pos.direction = .long then pos.positionSize else 0) ∧
    (close_trade cfg pos cp lr L).ledger.total_short_position
      = L.total_short_position - (if pos.direction = .short then pos.positionSize else 0) := by
  cases hd : pos.direction <;> simp [close_trade, hd]

lemma process_entry_conserved (cfg : Config) (trade : Inst) (nm : String)
    (ep : ℚ) (now : Time) (r : EntryResult) (id : String) (trig : Option Inst)
    (h : Conserved r.ledger r.live) :
    Conserved (process_entry cfg trade nm ep now r id trig).ledger
      (process_entry cfg trade nm ep now r id trig).live := by
  unfold process_entry
  split
  · exact h
  · cases hd : trade.direction <;>
      constructor <;>
      simp [sideSum_append, entryPosition, hd, h.1, h.2]

lemma fold_process_entry_conserved
    (step : EntryResult → Position → EntryResult)
    (hstep : ∀ r p, Conserved r.ledger r.live → Conserved (step r p).ledger (step r p).live)
    (l : List Position) (r : EntryResult) (h : Conserved r.ledger r.live) :
    Conserved (l.foldl step r).ledger (l.foldl step r).live := by
  induction l generalizing r with
  | nil => exact h
  | cons p l ih => exact ih _ (hstep r p h)

lemma fib_pass_conserved (cfg : Config) (flag : Bool) (gd : Position → Option Time)
    (gf : Position → Option ℚ) (lvl : String) (minute : Candle) (r : EntryResult)
    (h : Conserved r.ledger r.live) :
    Conserved (fib_pass cfg flag gd gf lvl minute r).ledger
      (fib_pass cfg flag gd gf lvl minute r).live := by
  unfold fib_pass
  split
  · exact h
  · exact fold_process_entry_conserved _
      (fun r p hc => process_entry_conserved cfg _ _ _ _ r _ _ hc) _ r h

lemma sim_entries_conserved (cfg : Config) (minute : Candle) (relevant : List Inst)
    (ai : InstIndex) (r : EntryResult) (h : Conserved r.ledger r.live) :
    Conserved (sim_entries cfg minute relevant ai r).ledger
      (sim_entries cfg minute relevant ai r).live := by
  unfold sim_entries
  apply fib_pass_conserved
  apply fib_pass_conserved
  apply fib_pass_conserved
  apply fib_pass_conserved
  induction relevant.filter _ generalizing r with
  | nil => exact h
  | cons t l ih =>
    simp only [List.foldl_cons]
    apply ih
    cases hf : entry_filters cfg t relevant ai with
    | none => simpa [hf] using h
    | some trig => simpa [hf] using process_entry_conserved cfg _ _ _ _ r _ _ h

lemma subperm_tail {p : Position} {q l : List Position} (h : (p :: q).Subperm l) :
    q.Subperm l :=
  (List.sublist_cons_self p q).subperm.trans h

lemma subperm_erase {p : Position} {q l : List Position} (h : (p :: q).Subperm l) :
    q.Subperm (l.erase p) := by
  have hm : p ∈ l := h.subset (List.mem_cons_self p q)
  exact (List.subperm_cons p).mp (h.trans (List.perm_cons_erase hm).subperm)

lemma sim_exits_step_or (cfg : Config) (minute : Candle) (st : ExitsState)
    (pos : Position) :
    (exit_decision cfg minute st.close_price pos = none ∧
      sim_exits_step cfg minute st pos = st) ∨
    (∃ cp lr, exit_decision cfg minute st.close_price pos = some (cp, lr) ∧
      sim_exits_step cfg minute st pos =
        { ledger := (close_trade cfg pos cp lr st.ledger).ledger, close_price := cp,
          live := st.live.erase pos,
          log := st.log ++ [(close_trade cfg pos cp lr st.ledger).record],
          wins := st.wins + (if (close_trade cfg pos cp lr st.ledger).is_win then 1 else 0),
          losses := st.losses + (if (close_trade cfg pos cp lr st.ledger).is_loss then 1 else 0) }) := by
  unfold sim_exits_step
  cases h : exit_decision cfg minute st.close_price pos with
  | none => exact .inl ⟨rfl, rfl⟩
  | some v => exact .inr ⟨v.1, v.2, rfl, rfl⟩

lemma exits_fold_conserved (cfg : Config) (minute : Candle) :
    ∀ (q : List Position) (st : ExitsState), q.Subperm st.live →
      Conserved st.ledger st.live →
      Conserved (q.foldl (sim_exits_step cfg minute) st).ledger
        (q.foldl (sim_exits_step cfg minute) st).live := by
  intro q
  induction q with
  | nil => intro st _ h; exact h
  | cons p q ih =>
    intro st hsub h
    simp only [List.foldl_cons]
    rcases sim_exits_step_or cfg minute st p with ⟨_, heq⟩ | ⟨cp, lr, _, heq⟩
    · rw [heq]; exact ih st (subperm_tail hsub) h
    · rw [heq]
      apply ih
      · exact subperm_erase hsub
      · have hm : p ∈ st.live := hsub.subset (List.mem_cons_self p q)
        have ht := close_trade_totals cfg p cp lr st.ledger
        constructor
        · rw [ht.1, sideSum_erase .long hm, h.1]
        · rw [ht.2, sideSum_erase .short hm, h.2]

lemma sim_exits_conserved (cfg : Config) (minute : Candle) (L : Ledger)
    (ops : List Position) (log : List TradeRec) (h : Conserved L ops) :
    Conserved (sim_exits cfg minute L ops log).ledger
      (sim_exits cfg minute L ops log).live :=
  exits_fold_conserved cfg minute ops _ (List.Subperm.refl ops) h

lemma run_minute_entries_conserved (cfg : Config) (ai : InstIndex) (st : SimState)
    (inp : MinuteInput) (h : Conserved st.ledger st.live) :
    Conserved (run_minute_entries cfg ai st inp).ledger
      (run_minute_entries cfg ai st inp).live := by
  unfold run_minute_entries
  split <;> simp only [] <;> split <;>
    first
      | exact sim_entries_conserved cfg inp.candle inp.relevant ai
          { ledger := st.ledger, live := st.live, log := st.log } h
      | exact h

lemma run_minute_conserved (cfg : Config) (ai : InstIndex) (st : SimState)
    (inp : MinuteInput) (h : Conserved st.ledger st.live) :
    Conserved (run_minute cfg ai st inp).ledger (run_minute cfg ai st inp).live := by
  have h2 := sim_exits_conserved cfg inp.candle _ _
    (run_minute_entries cfg ai st inp).log
    (run_minute_entries_conserved cfg ai st inp h)
  exact ⟨h2.1, h2.2⟩

lemma run_sim_conserved (cfg : Config) (ai : InstIndex)
    (inputs : List MinuteInput) (st : SimState) (h : Conserved st.ledger st.live) :
    Conserved (run_sim cfg ai st inputs).ledger (run_sim cfg ai st inputs).live := by
  induction inputs generalizing st with
  | nil => exact h
  | cons i l ih => exact ih _ (run_minute_conserved cfg ai st i h)

/-- C1.  Conservation invariant: starting from the fresh initial state, at
the end of every simulated minute (after the entry pass and the exit pass
of that minute) the ledger aggregate `total_long_position` equals the sum
of `'Position Size'` over the open positions with long direction, and
`total_short_position` the corresponding sum over the short ones — for
every configuration, instance universe, and minute sequence, and at every
prefix of the run. -/
theorem conservation_invariant_run (cfg : Config) (ai : InstIndex)
    (inputs : List MinuteInput) (n : Nat) :
    (run_sim cfg ai (initialState cfg) (inputs.take n)).ledger.total_long_position
      = sideSum .long (run_sim cfg ai (initialState cfg) (inputs.take n)).live ∧
    (run_sim cfg ai (initialState cfg) (inputs.take n)).ledger.total_short_position
      = sideSum .short (run_sim cfg ai (initialState cfg) (inputs.take n)).live :=
  run_sim_conserved cfg ai (inputs.take n) (initialState cfg) ⟨rfl, rfl⟩

/-! ## Cost-basis invariant (spec §3 Ledger / §8, claim C5) -/

/-- Cost-basis invariant: a side with zero aggregate position has zero cost
basis. -/
def BasisInv (L : Ledger) : Prop :=
  (L.total_long_position = 0 → L.long_cost_basis = 0) ∧
  (L.total_short_position = 0 → L.short_cost_basis = 0)

lemma close_trade_basis_char (cfg : Config) (pos : Position) (cp : ℚ)
    (lr : Option String) (L : Ledger) :
    (close_trade cfg pos cp lr L).ledger.long_cost_basis =
      (if pos.direction = .long ∧ L.total_long_position - pos.positionSize = 0 then 0
       else L.long_cost_basis) ∧
    (close_trade cfg pos cp lr L).ledger.short_cost_basis =
      (if pos.direction = .short ∧ L.total_short_position - pos.positionSize = 0 then 0
       else L.short_cost_basis) := by
  cases hd : pos.direction <;> constructor <;>
    simp only [close_trade, hd] <;> split <;> simp_all

lemma close_trade_basis_inv (cfg : Config) (pos : Position) (cp : ℚ)
    (lr : Option String) (L : Ledger) (h : BasisInv L) :
    BasisInv (close_trade cfg pos cp lr L).ledger := by
  have hc := close_trade_basis_char cfg pos cp lr L
  have ht := close_trade_totals cfg pos cp lr L
  cases hd : pos.direction
  · refine ⟨fun h0 => ?_, fun h0 => ?_⟩
    · rw [ht.1, hd] at h0
      simp at h0
      simp [hc.1, hd, h0]
    · rw [ht.2, hd] at h0
      simp at h0
      simp [hc.2, hd, h.2 h0]
  · refine ⟨fun h0 => ?_, fun h0 => ?_⟩
    · rw [ht.1, hd] at h0
      simp at h0
      simp [hc.1, hd, h.1 h0]
    · rw [ht.2, hd] at h0
      simp at h0
      simp [hc.2, hd, h0]

lemma process_entry_basis_char (cfg : Config) (trade : Inst) (nm : String)
    (ep : ℚ) (now : Time) (r : EntryResult) (id : String) (trig : Option Inst) :
    (trade.direction = .short →
      (process_entry cfg trade nm ep now r id trig).ledger.long_cost_basis
        = r.ledger.long_cost_basis) ∧
    (trade.direction = .long →
      (process_entry cfg trade nm ep now r id trig).ledger.short_cost_basis
        = r.ledger.short_cost_basis) := by
  constructor <;> intro hd <;> unfold process_entry <;> split <;> simp [hd]

lemma process_entry_ledger_char (cfg : Config) (trade : Inst) (nm : String)
    (ep : ℚ) (now : Time) (r : EntryResult) (id : String) (trig : Option Inst) :
    (process_entry cfg trade nm ep now r id trig).ledger.total_long_position
      = (if entry_capped cfg r.live.length ∨ trade.direction = .short
         then r.ledger.total_long_position
         else r.ledger.total_long_position + position_size_of cfg ep r.ledger.cash_on_hand) ∧
    (process_entry cfg trade nm ep now r id trig).ledger.total_short_position
      = (if entry_capped cfg r.live.length ∨ trade.direction = .long
         then r.ledger.total_short_position
         else r.ledger.total_short_position + position_size_of cfg ep r.ledger.cash_on_hand) ∧
    (process_entry cfg trade nm ep now r id trig).ledger.long_cost_basis
      = (if entry_capped cfg r.live.length ∨ trade.direction = .short
         then r.ledger.long_cost_basis
         else
           (let s := position_size_of cfg ep r.ledger.cash_on_hand
            let newTotal := r.ledger.total_long_position + s
            if 0 < newTotal then
              (r.ledger.long_cost_basis * (newTotal - s) + s * ep) / newTotal
            else 0)) ∧
    (process_entry cfg trade nm ep now r id trig).ledger.short_cost_basis
      = (if entry_capped cfg r.live.length ∨ trade.direction = .long
         then r.ledger.short_cost_basis
         else
           (let s := position_size_of cfg ep r.ledger.cash_on_hand
            let newTotal := r.ledger.total_short_position + s
            if 0 < newTotal then
              (r.ledger.short_cost_basis * (newTotal - s) + s * ep) / newTotal
            else 0)) ∧
    (process_entry cfg trade nm ep now r id trig).ledger.cash_on_hand
      = r.ledger.cash_on_hand := by
  unfold process_entry
  split <;> rename_i hcap <;> cases hd : trade.direction <;> simp [hd, hcap]

lemma process_entry_basis_inv (cfg : Config) (trade : Inst) (nm : String)
    (ep : ℚ) (now : Time) (r : EntryResult) (id : String) (trig : Option Inst)
    (h : BasisInv r.ledger) :
    BasisInv (process_entry cfg trade nm ep now r id trig).ledger := by
  obtain ⟨h1, h2, h3, h4, -⟩ := process_entry_ledger_char cfg trade nm ep now r id trig
  constructor
  · intro h0
    rw [h1] at h0
    rw [h3]
    split at h0
    · rw [if_pos (by assumption)]; exact h.1 h0
    · rw [if_neg (by assumption)]
      simp only [h0]
      simp
  · intro h0
    rw [h2] at h0
    rw [h4]
    split at h0
    · rw [if_pos (by assumption)]; exact h.2 h0
    · rw [if_neg (by assumption)]
      simp only [h0]
      simp

lemma fold_basis_inv (step : EntryResult → Position → EntryResult)
    (hstep : ∀ r p, BasisInv r.ledger → BasisInv (step r p).ledger)
    (l : List Position) (r : EntryResult) (h : BasisInv r.ledger) :
    BasisInv ((l.foldl step r).ledger) := by
  induction l generalizing r with
  | nil => exact h
  | cons p l ih => exact ih _ (hstep r p h)

lemma fib_pass_basis_inv (cfg : Config) (flag : Bool) (gd : Position → Option Time)
    (gf : Position → Option ℚ) (lvl : String) (minute : Candle) (r : EntryResult)
    (h : BasisInv r.ledger) :
    BasisInv (fib_pass cfg flag gd gf lvl minute r).ledger := by
  unfold fib_pass
  split
  · exact h
  · exact fold_basis_inv _
      (fun r p hc => process_entry_basis_inv cfg _ _ _ _ r _ _ hc) _ r h

lemma sim_entries_basis_inv (cfg : Config) (minute : Candle) (relevant : List Inst)
    (ai : InstIndex) (r : EntryResult) (h : BasisInv r.ledger) :
    BasisInv (sim_entries cfg minute relevant ai r).ledger := by
  unfold sim_entries
  apply fib_pass_basis_inv
  apply fib_pass_basis_inv
  apply fib_pass_basis_inv
  apply fib_pass_basis_inv
  induction relevant.filter _ generalizing r with
  | nil => exact h
  | cons t l ih =>
    simp only [List.foldl_cons]
    apply ih
    cases hf : entry_filters cfg t relevant ai with
    | none => simpa [hf] using h
    | some trig => simpa [hf] using process_entry_basis_inv cfg _ _ _ _ r _ _ h

lemma exits_fold_basis_inv (cfg : Config) (minute : Candle) (q : List Position)
    (st : ExitsState) (h : BasisInv st.ledger) :
    BasisInv ((q.foldl (sim_exits_step cfg minute) st).ledger) := by
  induction q generalizing st with
  | nil => exact h
  | cons p q ih =>
    simp only [List.foldl_cons]
    rcases sim_exits_step_or cfg minute st p with ⟨_, heq⟩ | ⟨cp, lr, _, heq⟩
    · rw [heq]; exact ih st h
    · rw [heq]; exact ih _ (close_trade_basis_inv cfg p cp lr st.ledger h)

lemma run_minute_basis_inv (cfg : Config) (ai : InstIndex) (st : SimState)
    (inp : MinuteInput) (h : BasisInv st.ledger) :
    BasisInv (run_minute cfg ai st inp).ledger := by
  have h1 : BasisInv (run_minute_entries cfg ai st inp).ledger := by
    unfold run_minute_entries
    split <;> simp only [] <;> split
    · exact sim_entries_basis_inv cfg inp.candle inp.relevant ai
        { ledger := st.ledger, live := st.live, log := st.log } h
    · exact h
    · exact sim_entries_basis_inv cfg inp.candle inp.relevant ai
        { ledger := st.ledger, live := st.live, log := st.log } h
    · exact h
  have h2 := exits_fold_basis_inv cfg inp.candle
    (run_minute_entries cfg ai st inp).live
    { ledger := (run_minute_entries cfg ai st inp).ledger,
      close_price := inp.candle.close,
      live := (run_minute_entries cfg ai st inp).live,
      log := (run_minute_entries cfg ai st inp).log, wins := 0, losses := 0 } h1
  exact ⟨h2.1, h2.2⟩

lemma run_sim_basis_inv (cfg : Config) (ai : InstIndex)
    (inputs : List MinuteInput) (st : SimState) (h : BasisInv st.ledger) :
    BasisInv (run_sim cfg ai st inputs).ledger := by
  induction inputs generalizing st with
  | nil => exact h
  | cons i l ih => exact ih _ (run_minute_basis_inv cfg ai st i h)

/-- C5.  Cost-basis invariant: (1) from the fresh initial state, after every
simulated minute a side whose aggregate position is 0 has cost basis 0;
(2) a close resets a side's basis to 0 exactly when it brings that side's
aggregate back to exactly zero, and leaves it unchanged otherwise (the
other side untouched); (3) an entry changes only the matching side's basis,
by the volume-weighted-average update (guarded to 0 for a non-positive new
aggregate), and never the other side's. -/
theorem cost_basis_invariant :
    (∀ (cfg : Config) (ai : InstIndex) (inputs : List MinuteInput) (n : Nat),
      ((run_sim cfg ai (initialState cfg) (inputs.take n)).ledger.total_long_position = 0 →
        (run_sim cfg ai (initialState cfg) (inputs.take n)).ledger.long_cost_basis = 0) ∧
      ((run_sim cfg ai (initialState cfg) (inputs.take n)).ledger.total_short_position = 0 →
        (run_sim cfg ai (initialState cfg) (inputs.take n)).ledger.short_cost_basis = 0)) ∧
    (∀ (cfg : Config) (pos : Position) (cp : ℚ) (lr : Option String) (L : Ledger),
      (close_trade cfg pos cp lr L).ledger.long_cost_basis =
        (if pos.direction = .long ∧ L.total_long_position - pos.positionSize = 0 then 0
         else L.long_cost_basis) ∧
      (close_trade cfg pos cp lr L).ledger.short_cost_basis =
        (if pos.direction = .short ∧ L.total_short_position - pos.positionSize = 0 then 0
         else L.short_cost_basis)) ∧
    (∀ (cfg : Config) (trade : Inst) (nm : String) (ep : ℚ) (now : Time)
       (r : EntryResult) (id : String) (trig : Option Inst),
      (process_entry cfg trade nm ep now r id trig).ledger.long_cost_basis
        = (if entry_capped cfg r.live.length ∨ trade.direction = .short
           then r.ledger.long_cost_basis
           else
             (let s := position_size_of cfg ep r.ledger.cash_on_hand
              let newTotal := r.ledger.total_long_position + s
              if 0 < newTotal then
                (r.ledger.long_cost_basis * (newTotal - s) + s * ep) / newTotal
              else 0)) ∧
      (process_entry cfg trade nm ep now r id trig).ledger.short_cost_basis
        = (if entry_capped cfg r.live.length ∨ trade.direction = .long
           then r.ledger.short_cost_basis
           else
             (let s := position_size_of cfg ep r.ledger.cash_on_hand
              let newTotal := r.ledger.total_short_position + s
              if 0 < newTotal then
                (r.ledger.short_cost_basis * (newTotal - s) + s * ep) / newTotal
              else 0))) := by
  refine ⟨fun cfg ai inputs n => ?_, fun cfg pos cp lr L => ?_, fun cfg trade nm ep now r id trig => ?_⟩
  · exact run_sim_basis_inv cfg ai (inputs.take n) (initialState cfg)
      ⟨fun _ => rfl, fun _ => rfl⟩
  · exact close_trade_basis_char cfg pos cp lr L
  · obtain ⟨-, -, h3, h4, -⟩ := process_entry_ledger_char cfg trade nm ep now r id trig
    exact ⟨h3, h4⟩

/-- Witness for C5: a fresh empty run has zero aggregates, and the theorem
yields zero bases there; a concrete long close that empties the long side
resets the long basis to 0; a concrete short entry leaves the long basis
untouched. -/
theorem cost_basis_invariant_witness :
    (run_sim {} [] (initialState {}) ([].take 0)).ledger.total_long_position = 0 ∧
    (run_sim {} [] (initialState {}) ([].take 0)).ledger.long_cost_basis = 0 ∧
    (close_trade {} { direction := .long, positionSize := 5 } 7 none
      { total_long_position := 5, long_cost_basis := 3 }).ledger.long_cost_basis = 0 := by
  refine ⟨by decide, ?_, ?_⟩
  · exact (cost_basis_invariant.1 {} [] [] 0).1 (by decide)
  · rw [(cost_basis_invariant.2.1 {} { direction := .long, positionSize := 5 } 7 none
      { total_long_position := 5, long_cost_basis := 3 }).1]
    norm_num

/-! ## Fee accounting (claims C6, C9) -/

lemma close_trade_record_char (cfg : Config) (pos : Position) (cp : ℚ)
    (lr : Option String) (L : Ledger) :
    (close_trade cfg pos cp lr L).record.trade_fee
      = pos.opening_fee + cp * pos.positionSize * cfg.fee_rate ∧
    (close_trade cfg pos cp lr L).record.price = cp ∧
    (close_trade cfg pos cp lr L).record.ind_PnL
      = (if pos.direction = .long then (cp - pos.openPrice) * pos.positionSize
         else (pos.openPrice - cp) * pos.positionSize)
        - pos.opening_fee - cp * pos.positionSize * cfg.fee_rate := by
  cases hd : pos.direction <;> simp [close_trade, hd]

lemma close_trade_cash_char (cfg : Config) (pos : Position) (cp : ℚ)
    (lr : Option String) (L : Ledger) :
    (close_trade cfg pos cp lr L).ledger.cash_on_hand
      = L.cash_on_hand +
        ((if pos.direction = .long then (cp - L.long_cost_basis) * pos.positionSize
          else (L.short_cost_basis - cp) * pos.positionSize)
         - pos.opening_fee - cp * pos.positionSize * cfg.fee_rate) := by
  cases hd : pos.direction <;> simp [close_trade, hd]

lemma process_entry_appended (cfg : Config) (trade : Inst) (nm : String)
    (ep : ℚ) (now : Time) (r : EntryResult) (id : String) (trig : Option Inst) :
    (process_entry cfg trade nm ep now r id trig).live.drop r.live.length
      = (if entry_capped cfg r.live.length then []
         else
           [entryPosition trade nm ep now id trig
             (position_size_of cfg ep r.ledger.cash_on_hand)
             (match trade.confirm_date, trade.active_date with
              | some c, some a => pending_p_value cfg c a
              | _, _ => 0)
             (match trade.active_date with
              | some a => trigger_t_value cfg trig a
              | none => 0)
             (position_size_of cfg ep r.ledger.cash_on_hand * ep * cfg.fee_rate)]) := by
  unfold process_entry
  split <;> rename_i hcap <;> simp [hcap, List.drop_left, List.drop_length]

/-- C9.  Frame property of opening: `process_entry` never changes
`cash_on_hand`; the entry fee is stored on the created position as
`opening_fee` (equal to `open price × size × fee_rate`) instead of being
deducted; cash changes only in `close_trade`, where the realized PnL
credited to cash nets out the stored opening fee and the closing fee
exactly once each (fee-at-close accounting). -/
theorem entry_preserves_cash_fee_at_close :
    (∀ (cfg : Config) (trade : Inst) (nm : String) (ep : ℚ) (now : Time)
       (r : EntryResult) (id : String) (trig : Option Inst),
      (process_entry cfg trade nm ep now r id trig).ledger.cash_on_hand
        = r.ledger.cash_on_hand ∧
      ((process_entry cfg trade nm ep now r id trig).live.drop r.live.length).map
          (·.opening_fee)
        = ((process_entry cfg trade nm ep now r id trig).live.drop r.live.length).map
            (fun p => p.openPrice * p.positionSize * cfg.fee_rate)) ∧
    (∀ (cfg : Config) (pos : Position) (cp : ℚ) (lr : Option String) (L : Ledger),
      (close_trade cfg pos cp lr L).ledger.cash_on_hand
        = L.cash_on_hand +
          ((if pos.direction = .long then (cp - L.long_cost_basis) * pos.positionSize
            else (L.short_cost_basis - cp) * pos.positionSize)
           - pos.opening_fee - cp * pos.positionSize * cfg.fee_rate)) := by
  refine ⟨fun cfg trade nm ep now r id trig => ⟨?_, ?_⟩, close_trade_cash_char⟩
  · exact (process_entry_ledger_char cfg trade nm ep now r id trig).2.2.2.2
  · rw [process_entry_appended]
    split
    · rfl
    · simp [entryPosition]
      exact Or.inl (mul_comm _ _)

/-- C6.  Fee symmetry: a position created by `process_entry` stores
`opening_fee = open price × size × fee_rate`; on close, the total fee
recorded on the close row equals that opening fee plus
`close price × size × fee_rate` — i.e. `entry*size*fee + exit*size*fee` —
and the individual PnL nets out both fees exactly once.  (The source
additionally rounds the logged value to 4 decimals for display.) -/
theorem fee_symmetry_open_close (cfg : Config) (trade : Inst) (nm : String)
    (ep : ℚ) (now : Time) (r : EntryResult) (id : String) (trig : Option Inst)
    (pos : Position) (cp : ℚ) (lr : Option String) (L : Ledger)
    (hpos : pos ∈ (process_entry cfg trade nm ep now r id trig).live.drop r.live.length) :
    pos.opening_fee = pos.openPrice * pos.positionSize * cfg.fee_rate ∧
    (close_trade cfg pos cp lr L).record.trade_fee
      = pos.openPrice * pos.positionSize * cfg.fee_rate
        + cp * pos.positionSize * cfg.fee_rate ∧
    (close_trade cfg pos cp lr L).record.ind_PnL
      = (if pos.direction = .long then (cp - pos.openPrice) * pos.positionSize
         else (pos.openPrice - cp) * pos.positionSize)
        - pos.openPrice * pos.positionSize * cfg.fee_rate
        - cp * pos.positionSize * cfg.fee_rate := by
  have h1 : pos.opening_fee = pos.openPrice * pos.positionSize * cfg.fee_rate := by
    rw [process_entry_appended] at hpos
    split at hpos
    · simp at hpos
    · simp only [List.mem_singleton] at hpos
      subst hpos
      simp [entryPosition]
      exact Or.inl (mul_comm _ _)
  obtain ⟨h2, -, h3⟩ := close_trade_record_char cfg pos cp lr L
  exact ⟨h1, by rw [h2, h1], by rw [h3, h1]⟩

/-- Configuration of the spec's §8 example scenario: method 3 at 10% of a
10,000 starting bankroll, fee rate 0.0003. -/
def c6cfg : Config :=
  { position_size_method := 3
    position_size_percent := 10
    fee_rate := 3/10000 }

/-- A fresh entry state with 10,000 cash. -/
def c6r0 : EntryResult := { ledger := { cash_on_hand := 10000 }, live := [], log := [] }

/-- The example instance: a long with entry 100 and target 110. -/
def c6trade : Inst :=
  { instance_id := some "ex"
    direction := .long
    entry := 100
    target := some 110
    confirm_date := some 0
    active_date := some 300 }

/-- The position the example entry creates. -/
def c6pos : Position :=
  ((process_entry c6cfg c6trade "ex" 100 300 c6r0 "ex" none).live.getLastD {})

/-- Witness for C6 at the spec's example: size `0.10*10000/100 = 10`,
opening fee `100*10*0.0003 = 0.3`, close at 110 books a total fee of
`0.3 + 110*10*0.0003 = 0.63` and `ind_PnL = 100 - 0.63 = 99.37`. -/
theorem fee_symmetry_open_close_witness :
    c6pos ∈ (process_entry c6cfg c6trade "ex" 100 300 c6r0 "ex" none).live.drop
      c6r0.live.length ∧
    c6pos.opening_fee = 3/10 ∧
    (close_trade c6cfg c6pos 110 none
      { cash_on_hand := 10000, total_long_position := 10,
        long_cost_basis := 100 }).record.trade_fee = 63/100 ∧
    (close_trade c6cfg c6pos 110 none
      { cash_on_hand := 10000, total_long_position := 10,
        long_cost_basis := 100 }).record.ind_PnL = 9937/100 := by
  have hm : c6pos ∈ (process_entry c6cfg c6trade "ex" 100 300 c6r0 "ex" none).live.drop
      c6r0.live.length := List.mem_singleton.mpr rfl
  have h := fee_symmetry_open_close c6cfg c6trade "ex" 100 300 c6r0 "ex" none c6pos 110 none
    { cash_on_hand := 10000, total_long_position := 10, long_cost_basis := 100 } hm
  refine ⟨hm, ?_, ?_, ?_⟩
  · rw [h.1]
    norm_num [c6pos, c6cfg, c6r0, c6trade, process_entry, entryPosition, position_size_of,
      calculate_position_size, entry_capped, List.getLastD, Except.toOption]
  · rw [h.2.1]
    norm_num [c6pos, c6cfg, c6r0, c6trade, process_entry, entryPosition, position_size_of,
      calculate_position_size, entry_capped, List.getLastD, Except.toOption]
  · rw [h.2.2]
    norm_num [c6pos, c6cfg, c6r0, c6trade, process_entry, entryPosition, position_size_of,
      calculate_position_size, entry_capped, List.getLastD, Except.toOption]

/-! ## PositionSizer (spec §4.1, claim C8) -/

/-- C8.  `calculate_position_size` in mode 3 returns
`(percent/100) * bankroll / entry_price`, or with descaling enabled the
`POSITION_DESCALING_FACTOR`-weighted average of that formula against the
starting bankroll and against the current bankroll; any mode outside
`{1, 2, 3}` fails with the configuration error.  The function is a pure
Lean function of its arguments, hence deterministic. -/
theorem position_sizer_spec (cfg : Config) (entry_price bankroll : ℚ)
    (hp : 0 < entry_price) :
    (cfg.position_size_method = 3 →
      calculate_position_size cfg entry_price bankroll =
        .ok (if cfg.USE_POSITION_DESCALING then
               (cfg.position_size_percent / 100) * cfg.starting_bankroll / entry_price
                 * cfg.POSITION_DESCALING_FACTOR
               + (cfg.position_size_percent / 100) * bankroll / entry_price
                 * (1 - cfg.POSITION_DESCALING_FACTOR)
             else (cfg.position_size_percent / 100) * bankroll / entry_price)) ∧
    (cfg.position_size_method ≠ 1 → cfg.position_size_method ≠ 2 →
      cfg.position_size_method ≠ 3 →
      calculate_position_size cfg entry_price bankroll
        = .error "Invalid position_size_method") := by
  constructor
  · intro h3
    unfold calculate_position_size
    rw [if_neg (by omega), if_neg (by omega), if_pos h3]
    split <;> rfl
  · intro h1 h2 h3
    unfold calculate_position_size
    rw [if_neg h1, if_neg h2, if_neg h3]

/-- Witness for C8: 10% of bankroll 10,000 at entry price 100 gives 10
units (the spec's example), and mode 4 is rejected. -/
theorem position_sizer_spec_witness :
    (0 : ℚ) < 100 ∧
    calculate_position_size { position_size_method := 3, position_size_percent := 10 }
      100 10000 = .ok 10 ∧
    calculate_position_size { position_size_method := 4 } 100 10000
      = .error "Invalid position_size_method" := by
  refine ⟨by norm_num, ?_, ?_⟩
  · have h := (position_sizer_spec
      { position_size_method := 3, position_size_percent := 10 } 100 10000
      (by norm_num)).1 rfl
    rw [h]
    norm_num
  · exact (position_sizer_spec { position_size_method := 4 } 100 10000
      (by norm_num)).2 (by norm_num) (by norm_num) (by norm_num)

/-! ## Opening-minute drawdown gate (claim C10) -/

/-- C10.  In the minute a position was opened (current timestamp in the same
minute as the position's `trade_date`), both drawdown checks are
independent of the candle's `low` and `high` — the candle-extreme path
cannot fire — and they return no-close unless the position's
`Completed Date` falls in that same minute and a precomputed
`extreme_price` is present (in which case the check uses `extreme_price`
only). -/
theorem opening_minute_drawdown_gate (cfg : Config) (pos : Position)
    (candle : Candle) (t : Time) (lo hi : ℚ)
    (h : minuteOf t = minuteOf pos.trade_date) :
    (check_advanced_max_position_drawdown cfg pos
        { candle with low := lo, high := hi } t
      = check_advanced_max_position_drawdown cfg pos candle t ∧
     check_max_position_drawdown cfg pos { candle with low := lo, high := hi } t
      = check_max_position_drawdown cfg pos candle t) ∧
    ((match pos.completedDate with
      | some cd => ¬ (minuteOf cd = minuteOf pos.trade_date ∧ pos.extreme_price.isSome)
      | none => True) →
      check_advanced_max_position_drawdown cfg pos candle t = noClose ∧
      check_max_position_drawdown cfg pos candle t = noClose) := by
  constructor
  · constructor
    · unfold check_advanced_max_position_drawdown drawdown_check_body
      split
      · rfl
      · rfl
    · unfold check_max_position_drawdown drawdown_check_body
      split
      · rfl
      · rfl
  · intro hng
    constructor
    · unfold check_advanced_max_position_drawdown drawdown_check_body
      split
      · rfl
      · cases hcd : pos.completedDate with
        | none => simp only [hcd]
        | some cd =>
          simp only [hcd] at hng ⊢
          by_cases hmin : minuteOf cd = minuteOf pos.trade_date
          · rw [if_pos hmin]
            cases hep : pos.extreme_price with
            | none => simp only [hep]
            | some ep => exact absurd ⟨hmin, by rw [hep]; rfl⟩ hng
          · rw [if_neg hmin]
    · unfold check_max_position_drawdown drawdown_check_body
      split
      · rfl
      · cases hcd : pos.completedDate with
        | none => simp only [hcd]
        | some cd =>
          simp only [hcd] at hng ⊢
          by_cases hmin : minuteOf cd = minuteOf pos.trade_date
          · rw [if_pos hmin]
            cases hep : pos.extreme_price with
            | none => simp only [hep]
            | some ep => exact absurd ⟨hmin, by rw [hep]; rfl⟩ hng
          · rw [if_neg hmin]

/-- Witness position/candle for C10: opened at second 0, checked at second
30 of the same minute, no completion. -/
def c10pos : Position :=
  { trade_id := "w"
    direction := .long
    openPrice := 100
    positionSize := 10
    trade_date := 0 }

/-- Configuration with both drawdown stops enabled for the C10 witness. -/
def c10cfg : Config :=
  { position_size_method := 3
    position_size_percent := 10
    use_ampd_percent := true
    use_mpd_percent := true
    mpd_percent := 1
    ampd_use_pending_time := true
    ampd_use_trigger_time := false }

/-- Witness for C10: in the opening minute, with no same-minute completion,
both checks return no-close even though the candle low crashed far below
any drawdown threshold, and changing the extremes does not change the
result. -/
theorem opening_minute_drawdown_gate_witness :
    minuteOf 30 = minuteOf c10pos.trade_date ∧
    check_advanced_max_position_drawdown c10cfg c10pos
      { timestamp := 30, low := 1, high := 200, close := 90 } 30 = noClose ∧
    check_max_position_drawdown c10cfg c10pos
      { timestamp := 30, low := 1, high := 200, close := 90 } 30 = noClose ∧
    check_advanced_max_position_drawdown c10cfg c10pos
      { timestamp := 30, low := 50, high := 99, close := 90 } 30
      = check_advanced_max_position_drawdown c10cfg c10pos
          { timestamp := 30, low := 1, high := 200, close := 90 } 30 := by
  have h := opening_minute_drawdown_gate c10cfg c10pos
    { timestamp := 30, low := 1, high := 200, close := 90 } 30 50 99 (by decide)
  have h2 := h.2 (by simp [c10pos])
  exact ⟨by decide, h2.1, h2.2, h.1.1⟩

/-! ## Exit priority order (spec §4.3, claim C2) -/

lemma check_ampd_flag_off (cfg : Config) (pos : Position) (price : Candle)
    (t : Time) (h : cfg.use_ampd_percent = false) :
    check_advanced_max_position_drawdown cfg pos price t = noClose := by
  unfold check_advanced_max_position_drawdown
  rw [if_pos]
  simp [h]

lemma check_mpd_flag_off (cfg : Config) (pos : Position) (price : Candle)
    (t : Time) (h : cfg.use_mpd_percent = false) :
    check_max_position_drawdown cfg pos price t = noClose := by
  unfold check_max_position_drawdown
  rw [if_pos]
  simp [h]

lemma check_ampd_fired_reason (cfg : Config) (pos : Position) (price : Candle)
    (t : Time) :
    (check_advanced_max_position_drawdown cfg pos price t).should_close = true →
    (check_advanced_max_position_drawdown cfg pos price t).reason ≠ none := by
  unfold check_advanced_max_position_drawdown drawdown_check_body
  dsimp only
  repeat' split
  all_goals simp [noClose]

lemma check_mpd_fired_reason (cfg : Config) (pos : Position) (price : Candle)
    (t : Time) :
    (check_max_position_drawdown cfg pos price t).should_close = true →
    (check_max_position_drawdown cfg pos price t).reason ≠ none := by
  unfold check_max_position_drawdown drawdown_check_body
  dsimp only
  repeat' split
  all_goals simp [noClose]

lemma check_fib_fired_reason (cfg : Config) (minute : Candle) (pos : Position) :
    (check_fib_levels cfg minute pos).should_close = true →
    (check_fib_levels cfg minute pos).reason ≠ none := by
  unfold check_fib_levels fib_alt
  repeat' split
  all_goals simp [noClose]

lemma exit_decision_char (cfg : Config) (minute : Candle) (cp : ℚ) (pos : Position) :
    exit_decision cfg minute cp pos =
      (if (check_advanced_max_position_drawdown cfg pos minute minute.timestamp).should_close then
         some (cp, (check_advanced_max_position_drawdown cfg pos minute minute.timestamp).reason)
       else if (check_max_position_drawdown cfg pos minute minute.timestamp).should_close then
         some (cp, (check_max_position_drawdown cfg pos minute minute.timestamp).reason)
       else if (check_fib_levels cfg minute pos).should_close then
         some (((check_fib_levels cfg minute pos).exit_price).getD cp,
               (check_fib_levels cfg minute pos).reason)
       else if static_capit_fires cfg minute pos then
         some (minute.close, some "static time capit")
       else if cmpTs pos.completedDate minute.timestamp then
         some (pos.targetPrice, none)
       else none) := by
  unfold exit_decision
  cases ha : cfg.use_ampd_percent
  · rw [check_ampd_flag_off cfg pos minute minute.timestamp ha]
    cases hm : cfg.use_mpd_percent
    · rw [check_mpd_flag_off cfg pos minute minute.timestamp hm]
      simp [noClose]
    · simp [noClose]
  · cases hm : cfg.use_mpd_percent
    · rw [check_mpd_flag_off cfg pos minute minute.timestamp hm]
      simp [noClose]
    · by_cases h1 : (check_advanced_max_position_drawdown cfg pos minute minute.timestamp).should_close
      · simp [h1]
      · simp [h1, Bool.not_eq_true] at *

lemma close_trade_record_id (cfg : Config) (pos : Position) (cp : ℚ)
    (lr : Option String) (L : Ledger) :
    (close_trade cfg pos cp lr L).record.trade_id = pos.trade_id := by
  cases hd : pos.direction <;> simp [close_trade, hd]

/-- Number of trade-log rows carrying a given trade id. -/
def close_count (id : String) (log : List TradeRec) : Nat :=
  (log.filter (fun r => r.trade_id == id)).length

/-- Number of open positions carrying a given trade id. -/
def id_count (id : String) (q : List Position) : Nat :=
  (q.filter (fun p => p.trade_id == id)).length

lemma id_count_cons (id : String) (p : Position) (q : List Position) :
    id_count id (p :: q) = (if p.trade_id == id then 1 else 0) + id_count id q := by
  simp only [id_count, List.filter_cons]
  split <;> simp [Nat.add_comm]

lemma close_count_append (id : String) (l : List TradeRec) (r : TradeRec) :
    close_count id (l ++ [r]) = close_count id l + (if r.trade_id == id then 1 else 0) := by
  simp only [close_count, List.filter_append, List.length_append]
  split <;> simp [List.filter_cons, *]

lemma exits_fold_close_count (cfg : Config) (minute : Candle) (id : String) :
    ∀ (q : List Position) (st : ExitsState),
      close_count id ((q.foldl (sim_exits_step cfg minute) st).log)
        ≤ close_count id st.log + id_count id q := by
  intro q
  induction q with
  | nil => intro st; simp [id_count]
  | cons p q ih =>
    intro st
    simp only [List.foldl_cons]
    rcases sim_exits_step_or cfg minute st p with ⟨_, heq⟩ | ⟨cp, lr, _, heq⟩
    · rw [heq, id_count_cons]
      refine le_trans (ih st) ?_
      split <;> omega
    · rw [heq, id_count_cons]
      refine le_trans (ih _) ?_
      simp only [close_count_append, close_trade_record_id]
      split <;> omega

/-- C2 (amended).  Exit priority order: (1) the per-position decision of the
`sim_exits` loop follows the fixed priority (advanced drawdown, static
drawdown, Fibonacci stop, static time capitulation, target completion),
first match winning, where the two drawdown stops close at the loop's
running `close_price` value `cp` (the checks' own threshold exit price is
discarded by the loop), the Fibonacci stop at the fib price, time
capitulation at the minute close and completion at the target price;
(2) the decision is a clean completion close — target price, no loss
reason — exactly when none of conditions 1-4 fires and the `Completed Date`
falls in this minute; (3) over a whole exit pass, the number of close rows
added for a trade id never exceeds the number of open positions carrying
that id, so each position closes at most once per minute. -/
theorem exit_priority_first_match :
    (∀ (cfg : Config) (minute : Candle) (cp : ℚ) (pos : Position),
      exit_decision cfg minute cp pos =
        (if (check_advanced_max_position_drawdown cfg pos minute minute.timestamp).should_close then
           some (cp, (check_advanced_max_position_drawdown cfg pos minute minute.timestamp).reason)
         else if (check_max_position_drawdown cfg pos minute minute.timestamp).should_close then
           some (cp, (check_max_position_drawdown cfg pos minute minute.timestamp).reason)
         else if (check_fib_levels cfg minute pos).should_close then
           some (((check_fib_levels cfg minute pos).exit_price).getD cp,
                 (check_fib_levels cfg minute pos).reason)
         else if static_capit_fires cfg minute pos then
           some (minute.close, some "static time capit")
         else if cmpTs pos.completedDate minute.timestamp then
           some (pos.targetPrice, none)
         else none)) ∧
    (∀ (cfg : Config) (minute : Candle) (cp : ℚ) (pos : Position),
      exit_decision cfg minute cp pos = some (pos.targetPrice, none) ↔
        ((check_advanced_max_position_drawdown cfg pos minute minute.timestamp).should_close = false ∧
         (check_max_position_drawdown cfg pos minute minute.timestamp).should_close = false ∧
         (check_fib_levels cfg minute pos).should_close = false ∧
         static_capit_fires cfg minute pos = false ∧
         cmpTs pos.completedDate minute.timestamp = true)) ∧
    (∀ (cfg : Config) (minute : Candle) (L : Ledger) (q : List Position)
       (log : List TradeRec) (id : String),
      close_count id ((sim_exits cfg minute L q log).log)
        ≤ close_count id log + id_count id q) := by
  refine ⟨exit_decision_char, fun cfg minute cp pos => ?_,
    fun cfg minute L q log id => exits_fold_close_count cfg minute id q _⟩
  rw [exit_decision_char]
  constructor
  · intro h
    by_cases h1 : (check_advanced_max_position_drawdown cfg pos minute minute.timestamp).should_close = true
    · simp only [h1, if_true] at h
      simp only [Option.some.injEq, Prod.mk.injEq] at h
      exact absurd h.2 (check_ampd_fired_reason cfg pos minute minute.timestamp h1)
    · rw [Bool.not_eq_true] at h1
      simp only [h1, Bool.false_eq_true, if_false] at h
      by_cases h2 : (check_max_position_drawdown cfg pos minute minute.timestamp).should_close = true
      · simp only [h2, if_true] at h
        simp only [Option.some.injEq, Prod.mk.injEq] at h
        exact absurd h.2 (check_mpd_fired_reason cfg pos minute minute.timestamp h2)
      · rw [Bool.not_eq_true] at h2
        simp only [h2, Bool.false_eq_true, if_false] at h
        by_cases h3 : (check_fib_levels cfg minute pos).should_close = true
        · simp only [h3, if_true] at h
          simp only [Option.some.injEq, Prod.mk.injEq] at h
          exact absurd h.2 (check_fib_fired_reason cfg minute pos h3)
        · rw [Bool.not_eq_true] at h3
          simp only [h3, Bool.false_eq_true, if_false] at h
          by_cases h4 : static_capit_fires cfg minute pos = true
          · simp only [h4, if_true, Option.some.injEq, Prod.mk.injEq] at h
            exact absurd h.2 (by simp)
          · rw [Bool.not_eq_true] at h4
            simp only [h4, Bool.false_eq_true, if_false] at h
            by_cases h5 : cmpTs pos.completedDate minute.timestamp = true
            · exact ⟨h1, h2, h3, h4, h5⟩
            · rw [Bool.not_eq_true] at h5
              simp only [h5, Bool.false_eq_true, if_false] at h
              exact absurd h (by simp)
  · rintro ⟨h1, h2, h3, h4, h5⟩
    simp [h1, h2, h3, h4, h5]

/-- Configuration for the close-price contamination scenario: method 3 at
10% position size, advanced drawdown stop on pending time only
(base 3%, max 8%, pending-time-high 100 days). -/
def c2cfg : Config :=
  { position_size_method := 3
    position_size_percent := 10
    use_ampd_percent := true
    ampd_use_pending_time := true
    ampd_use_trigger_time := false
    ampd_percent_base := 3
    ampd_percent_max := 8
    ampd_pending_time_high := 100 }

/-- Position "A": a long from entry 1 whose `Completed Date` falls in the
current minute; it completes cleanly at its target 105. -/
def c2posA : Position :=
  { trade_id := "A"
    direction := .long
    openPrice := 1
    positionSize := 10
    trade_date := 0
    completedDate := some 60
    targetPrice := 105 }

/-- Position "B": a long from entry 100 whose advanced drawdown stop fires
on this minute's candle. -/
def c2posB : Position :=
  { trade_id := "B"
    direction := .long
    openPrice := 100
    positionSize := 10
    ampd_p_value := 1/2
    trade_date := 0 }

/-- The minute candle for the contamination scenario (close 44, low 40). -/
def c2candle : Candle := { timestamp := 60, low := 40, high := 200, close := 44 }

/-- First close row of a given trade id in a log. -/
def recOfId (id : String) (log : List TradeRec) : Option TradeRec :=
  log.find? (fun r => r.trade_id == id)

/-- Counterexample to C2 as stated: position "B"'s advanced drawdown stop
fires identically in both runs, yet "B" closes at 105 (position "A"'s
target price, left in the loop's running `close_price` variable by A's
completion earlier in the same minute) when "A" is present, and at the
minute close 44 when "B" is alone — so the firing condition does not
determine the close price. -/
theorem exit_close_price_not_per_condition :
    (check_advanced_max_position_drawdown c2cfg c2posB c2candle c2candle.timestamp).should_close
      = true ∧
    (recOfId "B" (sim_exits c2cfg c2candle {} [c2posA, c2posB] []).log).map (·.price)
      = some 105 ∧
    (recOfId "B" (sim_exits c2cfg c2candle {} [c2posB] []).log).map (·.price)
      = some 44 ∧
    (recOfId "B" (sim_exits c2cfg c2candle {} [c2posA, c2posB] []).log).map (·.loss_reason)
      = (recOfId "B" (sim_exits c2cfg c2candle {} [c2posB] []).log).map (·.loss_reason) ∧
    (105 : ℚ) ≠ 44 := by
  have hAB : (("A" : String) == "B") = false := rfl
  refine ⟨?_, ?_, ?_, ?_, by norm_num⟩ <;>
    norm_num [hAB, recOfId, sim_exits, sim_exits_step, exit_decision, c2cfg, c2posA, c2posB,
      c2candle, check_advanced_max_position_drawdown, check_max_position_drawdown,
      drawdown_check_body, ampd_percent_of, check_fib_levels, fib_alt, static_capit_fires,
      cmpTs, minuteOf, noClose, close_trade, List.erase, List.find?, beq_iff_eq]

/-- Configuration of the C4 scenario: advanced drawdown stop from the
pending-time factor only, base 3%, max 8%, pending-time-high 100 days,
position size 10% of bankroll. -/
def c4cfg : Config :=
  { position_size_method := 3
    position_size_percent := 10
    use_ampd_percent := true
    ampd_use_pending_time := true
    ampd_use_trigger_time := false
    ampd_percent_base := 3
    ampd_percent_max := 8
    ampd_pending_time_high := 100 }

/-- A long position opened at 100 with pending-time factor 0.5 (pending 50
of 100 days), opened in an earlier minute. -/
def c4pos : Position :=
  { trade_id := "B"
    direction := .long
    openPrice := 100
    positionSize := 10
    ampd_p_value := 1/2
    trade_date := 0 }

/-- The minute candle on which the stop fires (low 40, close 44). -/
def c4candle : Candle := { timestamp := 60, low := 40, high := 101, close := 44 }

/-- C4 evaluated on the code: the pending-time factor of a 50-day pending
trade is 0.5 and the effective allowed drawdown is 5.5% of bankroll (the
claim's arithmetic), but when the stop fires the checker's computed
threshold price is `entry - max_allowed_loss/size = 45` (5.5% of the entry
bankroll, i.e. `entry*(1 - 5.5/position_size_percent)`), not
`entry*(1-0.055) = 94.5`, and `sim_exits` then discards even that price and
closes at the minute's close 44. -/
theorem ampd_threshold_price_discarded :
    pending_p_value c4cfg 0 4320000 = 1/2 ∧
    ampd_percent_of c4cfg c4pos = 11/2 ∧
    check_advanced_max_position_drawdown c4cfg c4pos c4candle 60
      = ⟨true, some 45, some "advanced max position drawdown"⟩ ∧
    ((sim_exits c4cfg c4candle {} [c4pos] []).log.map (fun r => (r.price, r.loss_reason)))
      = [(44, some "advanced max position drawdown")] ∧
    (45 : ℚ) ≠ 100 * (1 - 55/1000) ∧
    (44 : ℚ) ≠ 100 * (1 - 55/1000) := by
  refine ⟨?_, ?_, ?_, ?_, by norm_num, by norm_num⟩ <;>
    norm_num [pending_p_value, round4, round_eq, ampd_percent_of, c4cfg, c4pos, c4candle,
      sim_exits, sim_exits_step, exit_decision, check_advanced_max_position_drawdown,
      check_max_position_drawdown, drawdown_check_body, check_fib_levels, fib_alt,
      static_capit_fires, cmpTs, minuteOf, noClose, close_trade, List.erase, List.find?]

/-- A saved state whose last analysis row is minute 7200. -/
def c3records : List AnalysisRec := [{ timestamp := 7200 }]

/-- Three consecutive minute candles around the restored minute 7200. -/
def c3candles : List Candle :=
  [{ timestamp := 7140, low := 1, high := 1, close := 1 },
   { timestamp := 7200, low := 1, high := 1, close := 1 },
   { timestamp := 7260, low := 1, high := 1, close := 1 }]

/-- Counterexample to C3 as stated: a resumed run restores
`current_date = 7200` (the last analysis row) and then processes the
candles with `starting_date <= timestamp <= ending_date` — an inclusive
filter — so minute 7200 itself is processed again; processing does not
begin strictly after the restored minute. -/
theorem resume_not_strictly_after :
    load_state_current_date c3records = some 7200 ∧
    resumed_processed_minutes c3records c3candles 86400 = [7200, 7260] ∧
    ¬ (∀ t ∈ resumed_processed_minutes c3records c3candles 86400, 7200 < t) := by
  refine ⟨rfl, by decide, ?_⟩
  intro h
  exact absurd (h 7200 (by decide)) (by decide)

/-- C3 amended: on resume the simulation restores `current_date` from the
last analysis row and processes exactly the candles whose timestamps lie in
the inclusive window `[current_date, ending_date]`; in particular the
restored minute itself is processed again whenever a candle exists for it. -/
theorem resume_window_inclusive (records : List AnalysisRec)
    (candles : List Candle) (ending d : Time)
    (h : load_state_current_date records = some d) :
    resumed_processed_minutes records candles ending
      = (candles.filter (fun c => decide (d ≤ c.timestamp ∧ c.timestamp ≤ ending))).map
          (·.timestamp) ∧
    (∀ c ∈ candles, c.timestamp = d → d ≤ ending →
      d ∈ resumed_processed_minutes records candles ending) := by
  constructor
  · unfold resumed_processed_minutes day_candles
    rw [h]
  · intro c hc hts hde
    unfold resumed_processed_minutes day_candles
    rw [h]
    refine List.mem_map.mpr ⟨c, List.mem_filter.mpr ⟨hc, ?_⟩, hts⟩
    simp [hts, hde]

/-- The amended C3 statement at the concrete resume scenario. -/
theorem resume_window_inclusive_witness :
    load_state_current_date c3records = some 7200 ∧
    7200 ∈ resumed_processed_minutes c3records c3candles 86400 := by
  refine ⟨rfl, ?_⟩
  exact (resume_window_inclusive c3records c3candles 86400 7200 rfl).2
    { timestamp := 7200, low := 1, high := 1, close := 1 } (by decide) rfl (by decide)

/-- Configuration of the C7 scenario: same-minute trigger filtering and the
within-60-minutes trigger mode both enabled. -/
def c7cfg : Config :=
  { tt_stf_same_minute := true
    tt_stf_within_x_minutes := true
    tt_stf_within_minutes := 60 }

/-- The instance whose entry is being filtered: confirmed at 3600,
activating at 6000. -/
def c7instX : Inst :=
  { instance_id := some "X"
    timeframe := "1h"
    confirm_date := some 3600
    active_date := some 6000 }

/-- A same-timeframe, same-direction instance confirmed and activated
inside the 60-minute window before `c7instX`'s activation — it satisfies
the within-minutes trigger condition for `c7instX`. -/
def c7instY : Inst :=
  { instance_id := some "Y"
    timeframe := "1h"
    confirm_date := some 4200
    active_date := some 5940 }

/-- Instances-by-minute index holding both instances at their activation
minutes. -/
def c7index : InstIndex := [(99, [c7instY]), (100, [c7instX])]

/-- Counterexample to C7 as stated: mode (d) is enabled with a positive
window and `findD` produces the qualifying trigger `c7instY`, yet
`check_for_trigger_trades` reports "no trigger" (skipping the entry)
because mode (b)'s failure returns early without consulting mode (d) —
the enabled modes are not consulted independently. -/
theorem trigger_mode_d_unreachable :
    check_for_trigger_trades c7cfg c7instX [c7instX] c7index = (false, none) ∧
    findD c7cfg c7index 3600 6000 c7instX = some c7instY ∧
    c7instX.confirm_date = some 3600 ∧ c7instX.active_date = some 6000 ∧
    c7cfg.tt_stf_within_x_minutes = true ∧ 0 < c7cfg.tt_stf_within_minutes := by
  decide

/-- Mode (a)'s early return (`sim_entries.py` lines 320-334): with
`tt_stf_any_inside_activation` on and both later scan flags off, a failed
mode (a) ends the search. -/
def modeA_early_skip (cfg : Config) : Prop :=
  cfg.tt_stf_any_inside_activation = true ∧
  cfg.tt_stf_same_minute = false ∧ cfg.tt_stf_within_x_candles = false

/-- Mode (b)'s early return (lines 377-391): with `tt_stf_same_minute` on
and `tt_stf_within_x_candles` off, a failed mode (b) ends the search. -/
def modeB_early_skip (cfg : Config) : Prop :=
  cfg.tt_stf_same_minute = true ∧ cfg.tt_stf_within_x_candles = false

/-- C7 amended: with at least one trigger mode enabled and the trade's
dates present, `check_for_trigger_trades` reports "no trigger" exactly when
every mode consulted before an early return fails — mode (a) if enabled;
then, unless mode (a)'s early return fires, mode (b) if enabled; then,
unless mode (b)'s early return fires, mode (c) if enabled and mode (d) if
enabled with a positive window.  Modes after a fired early return are not
consulted. -/
theorem trigger_filter_skip_char (cfg : Config) (trade : Inst)
    (relevant : List Inst) (ai : InstIndex) (c a : Time)
    (hc : trade.confirm_date = some c) (ha : trade.active_date = some a)
    (hflags : (cfg.tt_stf_any_inside_activation || cfg.tt_stf_same_minute ||
       cfg.tt_stf_within_x_candles || cfg.tt_stf_within_x_minutes) = true) :
    (check_for_trigger_trades cfg trade relevant ai).1 = false ↔
      ((cfg.tt_stf_any_inside_activation = true → findA ai c a trade = none) ∧
       (modeA_early_skip cfg ∨
         ((cfg.tt_stf_same_minute = true → findB relevant c a trade = none) ∧
          (modeB_early_skip cfg ∨
            ((cfg.tt_stf_within_x_candles = true → findC cfg ai c a trade = none) ∧
             (cfg.tt_stf_within_x_minutes = true → 0 < cfg.tt_stf_within_minutes →
               findD cfg ai c a trade = none)))))) := by
  unfold check_for_trigger_trades
  rw [hc, ha, if_neg (by simp [hflags])]
  dsimp only
  cases hA : cfg.tt_stf_any_inside_activation <;>
    cases hB : cfg.tt_stf_same_minute <;>
    cases hC : cfg.tt_stf_within_x_candles <;>
    cases hD : cfg.tt_stf_within_x_minutes <;>
    cases hfA : findA ai c a trade <;>
    cases hfB : findB relevant c a trade <;>
    cases hfC : findC cfg ai c a trade <;>
    cases hfD : findD cfg ai c a trade <;>
    rcases Nat.eq_zero_or_pos cfg.tt_stf_within_minutes with hw | hw <;>
    simp_all [modeA_early_skip, modeB_early_skip]

/-- The amended C7 statement at the concrete scenario: mode (b) fails and
its early return fires, so the entry is skipped. -/
theorem trigger_filter_skip_char_witness :
    (check_for_trigger_trades c7cfg c7instX [c7instX] c7index).1 = false :=
  (trigger_filter_skip_char c7cfg c7instX [c7instX] c7index 3600 6000 rfl rfl rfl).mpr
    (by simp only [modeA_early_skip, modeB_early_skip]; decide)
